import Mathlib

/-!
Verification development for the Agent Run Streaming Protocol and the
Segment Reconciliation Engine of the budibase agent-chat feature.

Embedded source files:
* `packages/server/src/api/controllers/ai/agents.ts` — run emitter,
  tool-result directive handling, transcript persistence
  (`agentChatStream`, `addDebugInformation`).
* `packages/frontend-core/src/components/Chatbox/index.svelte` — segment
  reconciliation engine (`agentChatStream` event handler), rehydration
  (`rehydrateFromChatHistory`), rendering view (`getAssistantSegments`).
* `packages/types/src/sdk/ai.ts` — event and item shapes.

Modelling conventions:
* `randomUUID()` and `docIds.generateAgentChatID()` are modelled by a
  deterministic fresh-name counter; the produced ids are opaque and unique,
  which is all the source relies on.  Wall-clock timestamps are not
  modelled (the `timestamp` field is carried but never read).
* JavaScript loosely-typed values flowing through `JSON.parse` are modelled
  by an explicit `Json` inductive together with an executable parser and
  `JSON.stringify(·, null, 2)` printer.  The number grammar is restricted
  to integers; fractional literals fail to parse and take the raw-string
  fallback path of the source.
* JS truthiness (`""`, `0`, `null`, `undefined`, `false` are falsy) is made
  explicit at each use site.
-/

set_option autoImplicit false

namespace AgentStream

/-- JS truthiness of an optional string (`undefined` and `""` are falsy). -/
def strTruthy : Option String → Bool
  | none => false
  | some s => s ≠ ""

/-- JS `a || b` for an optional string with a default. -/
def jsOrS (a : Option String) (b : String) : String :=
  match a with
  | none => b
  | some s => if s = "" then b else s

/-- JS whitespace characters recognised by `String.prototype.trim`. -/
def isJsWs (c : Char) : Bool :=
  c = ' ' || c = '\n' || c = '\t' || c = '\r'

/-- `String.prototype.trim` on a character list. -/
def trimChars (l : List Char) : List Char :=
  ((l.dropWhile isJsWs).reverse.dropWhile isJsWs).reverse

/-- `String.prototype.trim`. -/
def jsTrim (s : String) : String :=
  ⟨trimChars s.data⟩

/-- `Array.prototype.join` with a separator. -/
def joinSep (sep : String) : List String → String
  | [] => ""
  | [x] => x
  | x :: xs => x ++ sep ++ joinSep sep xs

/-- `Map.prototype.get`: first entry with the given key. -/
def mget {κ : Type} {β : Type} [DecidableEq κ] : List (κ × β) → κ → Option β
  | [], _ => none
  | (k, v) :: t, k2 => if k = k2 then some v else mget t k2

/-- `Map.prototype.set`: update in place (keeping insertion order) or append. -/
def mset {κ : Type} {β : Type} [DecidableEq κ] : List (κ × β) → κ → β → List (κ × β)
  | [], k, v => [(k, v)]
  | (k1, v1) :: t, k, v => if k1 = k then (k, v) :: t else (k1, v1) :: mset t k v

/-- `Map.prototype.delete`. -/
def mdel {κ : Type} {β : Type} [DecidableEq κ] (m : List (κ × β)) (k : κ) : List (κ × β) :=
  m.filter (fun e => e.1 ≠ k)

/-- `Set.prototype.add`. -/
def sadd (s : List String) (x : String) : List String :=
  if x ∈ s then s else s ++ [x]

/-- `Set.prototype.delete`. -/
def sdel (s : List String) (x : String) : List String :=
  s.filter (fun y => y ≠ x)

/-- Deterministic model of `randomUUID()`: the `n`-th fresh name. -/
def mkUuid (n : Nat) : String :=
  "uuid-" ++ toString n

/-- Loosely-typed JSON values (numbers restricted to integers, see header). -/
inductive Json where
  | null
  | bool (b : Bool)
  | num (n : Int)
  | str (s : String)
  | arr (elems : List Json)
  | obj (fields : List (String × Json))

mutual

/-- Structural equality of JSON values. -/
def Json.beq : Json → Json → Bool
  | .null, .null => true
  | .bool a, .bool b => a = b
  | .num a, .num b => a = b
  | .str a, .str b => a = b
  | .arr a, .arr b => Json.beqList a b
  | .obj a, .obj b => Json.beqObj a b
  | _, _ => false

/-- Elementwise equality of JSON arrays. -/
def Json.beqList : List Json → List Json → Bool
  | [], [] => true
  | x :: xs, y :: ys => Json.beq x y && Json.beqList xs ys
  | _, _ => false

/-- Fieldwise equality of JSON objects. -/
def Json.beqObj : List (String × Json) → List (String × Json) → Bool
  | [], [] => true
  | (k1, v1) :: xs, (k2, v2) :: ys => k1 = k2 && Json.beq v1 v2 && Json.beqObj xs ys
  | _, _ => false

end

/-- JS truthiness of a JSON value. -/
def Json.truthy : Json → Bool
  | .null => false
  | .bool b => b
  | .num n => n ≠ 0
  | .str s => s ≠ ""
  | .arr _ => true
  | .obj _ => true

/-- `typeof v === "object"` together with truthiness: arrays and objects only
(`null` is `typeof "object"` but falsy at every use site in the source). -/
def Json.isObjLike : Json → Bool
  | .arr _ => true
  | .obj _ => true
  | _ => false

/-- JS property access `v.k` on a parsed value: defined fields of objects only,
`undefined` (here `none`) for arrays and primitives. -/
def Json.get : Json → String → Option Json
  | .obj fields, k => mget fields k
  | _, _ => none

/-- Property access falling back to `undefined`-as-`Json.null` (for truthiness
tests such as `result.removeComponentMessage`). -/
def Json.getD (j : Json) (k : String) : Json :=
  (j.get k).getD .null

/-- Skip JSON whitespace. -/
def skipWs (l : List Char) : List Char :=
  l.dropWhile isJsWs

/-- Parse the body of a JSON string literal after the opening quote, handling
the common escapes.  Returns the decoded characters and the remaining input. -/
def parseStringBody : List Char → Option (List Char × List Char)
  | [] => none
  | '"' :: rest => some ([], rest)
  | '\\' :: e :: rest =>
    match parseStringBody rest with
    | none => none
    | some (s, r) =>
      match e with
      | '"' => some ('"' :: s, r)
      | '\\' => some ('\\' :: s, r)
      | '/' => some ('/' :: s, r)
      | 'n' => some ('\n' :: s, r)
      | 't' => some ('\t' :: s, r)
      | 'r' => some ('\r' :: s, r)
      | 'b' => some ('\x08' :: s, r)
      | 'f' => some ('\x0c' :: s, r)
      | _ => none
  | c :: rest =>
    match parseStringBody rest with
    | none => none
    | some (s, r) => some (c :: s, r)

/-- Accumulating digit parser: folds digits left-to-right. -/
def parseNatAux : Nat → List Char → Nat × List Char
  | acc, c :: rest =>
    if c.isDigit then parseNatAux (acc * 10 + (c.toNat - 48)) rest
    else (acc, c :: rest)
  | acc, [] => (acc, [])

mutual

/-- Fuelled JSON value parser (integer numbers only, see header comment). -/
def parseJsonVal : Nat → List Char → Option (Json × List Char)
  | 0, _ => none
  | fuel + 1, l =>
    match skipWs l with
    | 'n' :: 'u' :: 'l' :: 'l' :: rest => some (.null, rest)
    | 't' :: 'r' :: 'u' :: 'e' :: rest => some (.bool true, rest)
    | 'f' :: 'a' :: 'l' :: 's' :: 'e' :: rest => some (.bool false, rest)
    | '"' :: rest =>
      match parseStringBody rest with
      | some (s, r) => some (.str ⟨s⟩, r)
      | none => none
    | '-' :: c :: rest =>
      if c.isDigit then
        let (n, r) := parseNatAux 0 (c :: rest)
        match r with
        | '.' :: _ => none
        | 'e' :: _ => none
        | 'E' :: _ => none
        | _ => some (.num (-(n : Int)), r)
      else none
    | '[' :: rest => parseJsonArr fuel rest
    | '{' :: rest => parseJsonObj fuel rest
    | c :: rest =>
      if c.isDigit then
        let (n, r) := parseNatAux 0 (c :: rest)
        match r with
        | '.' :: _ => none
        | 'e' :: _ => none
        | 'E' :: _ => none
        | _ => some (.num (n : Int), r)
      else none
    | [] => none

/-- Fuelled parser for the remainder of a JSON array after `[`. -/
def parseJsonArr : Nat → List Char → Option (Json × List Char)
  | 0, _ => none
  | fuel + 1, l =>
    match skipWs l with
    | ']' :: rest => some (.arr [], rest)
    | _ =>
      match parseJsonVal fuel (skipWs l) with
      | none => none
      | some (v, r) => parseJsonArrTail fuel [v] r

/-- Fuelled parser for array elements after the first. -/
def parseJsonArrTail : Nat → List Json → List Char → Option (Json × List Char)
  | 0, _, _ => none
  | fuel + 1, acc, l =>
    match skipWs l with
    | ',' :: rest =>
      match parseJsonVal fuel rest with
      | none => none
      | some (v, r) => parseJsonArrTail fuel (acc ++ [v]) r
    | ']' :: rest => some (.arr acc, rest)
    | _ => none

/-- Fuelled parser for the remainder of a JSON object after `\x7b`. -/
def parseJsonObj : Nat → List Char → Option (Json × List Char)
  | 0, _ => none
  | fuel + 1, l =>
    match skipWs l with
    | '}' :: rest => some (.obj [], rest)
    | '"' :: rest =>
      match parseStringBody rest with
      | none => none
      | some (k, r) =>
        match skipWs r with
        | ':' :: r2 =>
          match parseJsonVal fuel r2 with
          | none => none
          | some (v, r3) => parseJsonObjTail fuel [(⟨k⟩, v)] r3
        | _ => none
    | _ => none

/-- Fuelled parser for object fields after the first. -/
def parseJsonObjTail : Nat → List (String × Json) → List Char → Option (Json × List Char)
  | 0, _, _ => none
  | fuel + 1, acc, l =>
    match skipWs l with
    | ',' :: rest =>
      match skipWs rest with
      | '"' :: r =>
        match parseStringBody r with
        | none => none
        | some (k, r2) =>
          match skipWs r2 with
          | ':' :: r3 =>
            match parseJsonVal fuel r3 with
            | none => none
            | some (v, r4) => parseJsonObjTail fuel (acc ++ [(⟨k⟩, v)]) r4
          | _ => none
      | _ => none
    | '}' :: rest => some (.obj acc, rest)
    | _ => none

end

/-- Model of `JSON.parse`: `none` models a thrown `SyntaxError`. -/
def jsonParse (s : String) : Option Json :=
  match parseJsonVal (s.length + 1) s.data with
  | some (j, rest) => if skipWs rest = [] then some j else none
  | none => none

/-- Escape one character for a JSON string literal. -/
def escChar (c : Char) : List Char :=
  if c = '"' then ['\\', '"']
  else if c = '\\' then ['\\', '\\']
  else if c = '\n' then ['\\', 'n']
  else if c = '\t' then ['\\', 't']
  else if c = '\r' then ['\\', 'r']
  else [c]

/-- Quote a string as a JSON string literal. -/
def quoteStr (s : String) : String :=
  "\"" ++ ⟨s.data.flatMap escChar⟩ ++ "\""

/-- `n` spaces of indentation. -/
def indentOf (n : Nat) : String :=
  ⟨List.replicate n ' '⟩

mutual

/-- `JSON.stringify(v, null, 2)` at a given indentation depth. -/
def Json.stringify2 : Nat → Json → String
  | _, .null => "null"
  | _, .bool b => if b then "true" else "false"
  | _, .num n => toString n
  | _, .str s => quoteStr s
  | _, .arr [] => "[]"
  | ind, .arr (x :: xs) =>
    "[\n" ++ Json.stringifyItems (ind + 2) (x :: xs) ++ "\n" ++ indentOf ind ++ "]"
  | _, .obj [] => "\x7b\x7d"
  | ind, .obj (f :: fs) =>
    "\x7b\n" ++ Json.stringifyFields (ind + 2) (f :: fs) ++ "\n" ++ indentOf ind ++ "\x7d"

/-- Array items, one per line, comma separated. -/
def Json.stringifyItems : Nat → List Json → String
  | _, [] => ""
  | ind, [x] => indentOf ind ++ Json.stringify2 ind x
  | ind, x :: xs =>
    indentOf ind ++ Json.stringify2 ind x ++ ",\n" ++ Json.stringifyItems ind xs

/-- Object fields, one per line, comma separated. -/
def Json.stringifyFields : Nat → List (String × Json) → String
  | _, [] => ""
  | ind, [(k, v)] => indentOf ind ++ quoteStr k ++ ": " ++ Json.stringify2 ind v
  | ind, (k, v) :: fs =>
    indentOf ind ++ quoteStr k ++ ": " ++ Json.stringify2 ind v ++ ",\n" ++
      Json.stringifyFields ind fs

end

/-! ## Message model (`Message` of `@budibase/types`, as used by this core)

Assistant/tool message content is a string, absent, or (for tool messages)
a multi-part array whose text parts are concatenated for decoding. -/

/-- One part of a multi-part message content array. -/
inductive ContentPart where
  | strPart (s : String)
  | objPart (text : Option String)

/-- Message content: `undefined`, a string, or a part array. -/
inductive MsgContent where
  | absent
  | str (s : String)
  | parts (ps : List ContentPart)

/-- `toolCall.function` of an assistant tool call. -/
structure FnCall where
  name : String
  arguments : String

/-- One entry of `message.tool_calls`. -/
structure MsgToolCall where
  ctype : String
  fn : Option FnCall

/-- A chat message (`role`, `content`, `tool_calls`, `tool_call_id`).  An
absent `tool_calls` array is modelled as `[]` (both are JS-falsy via
`?.length`). -/
structure Message where
  role : String
  content : MsgContent
  tool_calls : List MsgToolCall
  tool_call_id : Option String

/-- JS string coercion of one content part (`String(part)`). -/
def ContentPart.coerce : ContentPart → String
  | .strPart s => s
  | .objPart _ => "[object Object]"

/-- JS string coercion of a content value (arrays coerce via `join(",")`);
only the string case is exercised by assistant messages in this flow. -/
def MsgContent.coerce : MsgContent → String
  | .absent => ""
  | .str s => s
  | .parts ps => joinSep "," (ps.map ContentPart.coerce)

/-- JS truthiness of a content value (`""` and `undefined` falsy; any array,
even empty, truthy). -/
def MsgContent.truthy : MsgContent → Bool
  | .absent => false
  | .str s => s ≠ ""
  | .parts _ => true

/-! ## `addDebugInformation` (server, `agents.ts` lines 40–81) -/

/-- `JSON.stringify(JSON.parse(args), null, 2)` with raw-string fallback on a
parse error. -/
def prettyToolParams (args : String) : String :=
  match jsonParse args with
  | some j => Json.stringify2 0 j
  | none => args

/-- Debug line for one tool call; unsupported entries contribute nothing
(the source logs a warning and `continue`s). -/
def toolCallDebug (tc : MsgToolCall) : String :=
  if tc.ctype ≠ "function" then ""
  else
    match tc.fn with
    | none => ""
    | some f =>
      "\n**Tool:** " ++ f.name ++ "\n**Parameters:**\n```json\n" ++
        prettyToolParams f.arguments ++ "\n```\n"

/-- Appends human-readable tool-call parameter summaries to assistant
content (`addDebugInformation`). -/
def addDebugInformation (messages : List Message) : List Message :=
  messages.map fun m =>
    if m.role = "assistant" ∧ m.tool_calls.length ≠ 0 then
      let toolDebugInfo :=
        "\n\n**Tool Calls:**\n" ++ String.join (m.tool_calls.map toolCallDebug)
      { m with content :=
          if m.content.truthy then .str (m.content.coerce ++ toolDebugInfo)
          else .str toolDebugInfo }
    else m

/-! ## Protocol events (`packages/types/src/sdk/ai.ts`) -/

/-- A renderable output item (`AgentOutputItem`). -/
inductive AgentOutputItem where
  | textItem (id : String) (text : String) (role : String) (metadata : List (String × Json))
  | componentItem (id : String) (component : Json) (role : String) (metadata : List (String × Json))

/-- The item's stable id. -/
def AgentOutputItem.id : AgentOutputItem → String
  | .textItem i _ _ _ => i
  | .componentItem i _ _ _ => i

/-- A partial update to an existing item (`AgentOutputItemPatch`). -/
structure AgentOutputItemPatch where
  state : Option String
  metadata : List (String × Json)
  replaceWith : Option AgentOutputItem

/-- Event payloads of the tagged union `AgentStreamEvent` (without the
base fields, which `StreamEvent` carries). -/
inductive EvBody where
  | responseStarted (responseId : String) (metadata : List (String × Json))
  | outputTextDelta (responseId : String) (itemId : String) (delta : String)
  | outputTextCompleted (responseId : String) (itemId : String) (text : String)
  | outputItemCreated (responseId : String) (item : AgentOutputItem)
  | outputItemUpdated (responseId : String) (itemId : String) (patch : AgentOutputItemPatch)
  | toolCallStarted (responseId : String) (callId : String) (name : String) (args : Json)
  | toolCallCompleted (responseId : String) (callId : String) (status : String)
      (result : Option Json) (errMsg : Option String)
  | runCompleted (responseId : String) (tokensUsed : Nat)
  | runError (responseId : String) (message : String) (retryable : Bool)
  | runSaved (responseId : String) (chatId : String) (revision : Option String)
      (metadata : List (String × Json))

/-- A wire event: payload plus the base fields added by `emitEventInternal`
(`timestamp` stands for an unmodelled wall clock). -/
structure StreamEvent where
  eventId : String
  runId : String
  sequence : Nat
  timestamp : Nat
  body : EvBody

/-- Event type tags, for ordering statements. -/
inductive EvKind where
  | started
  | textDelta
  | textCompleted
  | itemCreated
  | itemUpdated
  | tcStarted
  | tcCompleted
  | completed
  | runErr
  | saved
  deriving DecidableEq

/-- The tag of a payload. -/
def EvBody.kind : EvBody → EvKind
  | .responseStarted .. => .started
  | .outputTextDelta .. => .textDelta
  | .outputTextCompleted .. => .textCompleted
  | .outputItemCreated .. => .itemCreated
  | .outputItemUpdated .. => .itemUpdated
  | .toolCallStarted .. => .tcStarted
  | .toolCallCompleted .. => .tcCompleted
  | .runCompleted .. => .completed
  | .runError .. => .runErr
  | .runSaved .. => .saved

/-- The tag of a wire event. -/
def StreamEvent.kind (e : StreamEvent) : EvKind :=
  e.body.kind

/-- Is this a response-saved event? -/
def isRunSaved (e : StreamEvent) : Bool :=
  e.kind = .saved

/-- Is this a response-error event? -/
def isRunError (e : StreamEvent) : Bool :=
  e.kind = .runErr

/-- Is this a response-completed event? -/
def isRunCompleted (e : StreamEvent) : Bool :=
  e.kind = .completed

/-- Is this a response-started event? -/
def isResponseStarted (e : StreamEvent) : Bool :=
  e.kind = .started

/-! ## Provider chunks (`LLMStreamChunk`) -/

/-- `chunk.toolCall`. -/
structure ToolCallInfo where
  id : String
  name : String
  arguments : String

/-- `chunk.toolResult`. -/
structure ToolResultInfo where
  id : String
  result : String
  error : Option String

/-- A normalized provider chunk.  Optional payload fields mirror the
loosely-typed `LLMStreamChunk`; a chunk whose guarded payload is absent
falls through every branch of the source's `if` chain. -/
inductive ProviderChunk where
  | content (content : Option String)
  | toolCallStart (toolCall : Option ToolCallInfo)
  | toolCallResult (toolResult : Option ToolResultInfo)
  | done (messages : Option (List Message)) (tokensUsed : Option Nat)
  | error (content : Option String)
  | chatSaved

/-! ## Run emitter (`agentChatStream`, `agents.ts` lines 83–451)

Each provider chunk is turned into an ordered list of event payloads plus a
core-state update (`chunkStep`), and the payloads are then wrapped with
`eventId`/`sequence`/`timestamp` in emission order (`emitAll`), exactly as
the source's `emitEventInternal` does one call at a time. -/

/-- Emitter-side per-run state: the sequence counter, the events written so
far, the active text item, its accumulated text, and the fresh-name
counter standing in for `randomUUID()`. -/
structure EmitterSt where
  sequence : Nat
  events : List StreamEvent
  activeTextItemId : Option String
  accumulatedText : String
  uuidCtr : Nat

/-- `emitEventInternal`: enrich one payload and append it to the stream. -/
def emitOne (runId : String) (st : EmitterSt) (b : EvBody) : EmitterSt :=
  { st with
    uuidCtr := st.uuidCtr + 1
    sequence := st.sequence + 1
    events := st.events ++
      [{ eventId := mkUuid st.uuidCtr, runId := runId, sequence := st.sequence,
         timestamp := 0, body := b }] }

/-- Emit a list of payloads in order. -/
def emitAll (runId : String) (st : EmitterSt) (bs : List EvBody) : EmitterSt :=
  bs.foldl (emitOne runId) st

/-- Loop control after one chunk: continue, the `error`-chunk `return`, or
the `done`-chunk `break` carrying the final messages and token count. -/
inductive StepCtl where
  | next
  | errored
  | stop (finalMessages : List Message) (tokensUsed : Nat)

/-- `ensureTextItem`: reuse the active text item or mint one, producing the
output-item-created payload for a fresh item. -/
def ensureTextItem (responseId : String) (st : EmitterSt) :
    String × EmitterSt × List EvBody :=
  match st.activeTextItemId with
  | some i => (i, st, [])
  | none =>
    let i := mkUuid st.uuidCtr
    (i, { st with uuidCtr := st.uuidCtr + 1, activeTextItemId := some i },
      [.outputItemCreated responseId (.textItem i "" "assistant" [])])

/-- `tr.error` truthiness (`chunk.toolResult.error ?`). -/
def errTruthy (tr : ToolResultInfo) : Bool :=
  strTruthy tr.error

/-- The `parsedResult` of the tool_call_result branch: the parsed value when
`JSON.parse` succeeds on a truthy raw string and yields a truthy
`typeof "object"` value, else the raw string. -/
def parsedResultOf (tr : ToolResultInfo) : Json ⊕ String :=
  if tr.result = "" then .inr tr.result
  else
    match jsonParse tr.result with
    | some j => if j.isObjLike then .inl j else .inr tr.result
    | none => .inr tr.result

/-- The object the three directives read from, when the guard
`!error && parsedResult && typeof parsedResult === "object"` passes. -/
def directiveObj (tr : ToolResultInfo) : Option Json :=
  if errTruthy tr then none
  else
    match parsedResultOf tr with
    | .inl j => some j
    | .inr _ => none

/-- Directive 1: `message` present as a non-empty string. -/
def msgDirectiveOf (tr : ToolResultInfo) : Option String :=
  match directiveObj tr with
  | some o =>
    match o.get "message" with
    | some (.str m) => if m ≠ "" then some m else none
    | _ => none
  | none => none

/-- Directive 2: `component` present, truthy and `typeof "object"`. -/
def compDirectiveOf (tr : ToolResultInfo) : Option Json :=
  match directiveObj tr with
  | some o =>
    match o.get "component" with
    | some c => if c.truthy && c.isObjLike then some c else none
    | none => none
  | none => none

/-- The embedded `componentId` of a component payload when it is a truthy
string.  Values of other types are not produced by the tool protocol and
are modelled as absent, in which case the source falls back to
`randomUUID()`. -/
def compIdOf (c : Json) : Option String :=
  match c.get "componentId" with
  | some (.str s) => if s ≠ "" then some s else none
  | _ => none

/-- Directive 3: `removeComponentMessage` truthy together with a truthy
string `componentId`; also extracts the non-empty `message` used for the
`replaceWith` text item, when present. -/
def rmDirectiveOf (tr : ToolResultInfo) : Option (String × Option String) :=
  match directiveObj tr with
  | some o =>
    let rmOk := (o.getD "removeComponentMessage").truthy
    let cidOk :=
      match o.get "componentId" with
      | some (.str s) => if s ≠ "" then some s else none
      | _ => none
    match rmOk, cidOk with
    | true, some cid =>
      let successMessage :=
        match o.get "message" with
        | some (.str m) => some m
        | _ => none
      some (cid,
        match successMessage with
        | some m => if m ≠ "" then some m else none
        | none => none)
    | _, _ => none
  | none => none

/-- Metadata `sourceToolCallId` attached to directive-created items. -/
def srcMeta (callId : String) : List (String × Json) :=
  [("sourceToolCallId", .str callId)]

/-- Metadata of the hide patch. -/
def rmMeta (callId : String) : List (String × Json) :=
  [("reason", .str "submitted"), ("sourceToolCallId", .str callId)]

/-- Payloads of directive 1 (`message`): a fresh completed text item,
emitted as output-item-created followed by output-text-completed; returns
the advanced fresh-name counter. -/
def msgBodies (responseId : String) (tr : ToolResultInfo) (ctr : Nat) : List EvBody × Nat :=
  match msgDirectiveOf tr with
  | some m =>
    let itemId := mkUuid ctr
    ([EvBody.outputItemCreated responseId (.textItem itemId m "assistant" (srcMeta tr.id)),
      EvBody.outputTextCompleted responseId itemId m], ctr + 1)
  | none => ([], ctr)

/-- Payloads of directive 2 (`component`): one output-item-created with the
embedded or freshly minted component id. -/
def compBodies (responseId : String) (tr : ToolResultInfo) (ctr : Nat) : List EvBody × Nat :=
  match compDirectiveOf tr with
  | some c =>
    match compIdOf c with
    | some cid =>
      ([EvBody.outputItemCreated responseId
          (.componentItem cid c "assistant" (srcMeta tr.id))], ctr)
    | none =>
      ([EvBody.outputItemCreated responseId
          (.componentItem (mkUuid ctr) c "assistant" (srcMeta tr.id))], ctr + 1)
  | none => ([], ctr)

/-- Payloads of directive 3 (`removeComponentMessage`): one single
output-item-updated carrying the hide patch, with `replaceWith` exactly
when a non-empty `message` accompanies the directive. -/
def rmBodies (responseId : String) (tr : ToolResultInfo) (ctr : Nat) : List EvBody × Nat :=
  match rmDirectiveOf tr with
  | some (cid, some m) =>
    ([EvBody.outputItemUpdated responseId cid
        { state := some "hidden", metadata := rmMeta tr.id,
          replaceWith := some
            (.textItem (cid ++ "-result-" ++ mkUuid ctr) m "assistant" (srcMeta tr.id)) }],
      ctr + 1)
  | some (cid, none) =>
    ([EvBody.outputItemUpdated responseId cid
        { state := some "hidden", metadata := rmMeta tr.id, replaceWith := none }], ctr)
  | none => ([], ctr)

/-- One iteration of the provider-chunk loop: the payloads emitted for this
chunk in source order, the updated core state, and the loop control. -/
def chunkStep (responseId : String) (st : EmitterSt) :
    ProviderChunk → List EvBody × EmitterSt × StepCtl
  | .content co =>
    if strTruthy co then
      let s := co.getD ""
      let (itemId, st2, bs) := ensureTextItem responseId st
      let st3 := { st2 with accumulatedText := st2.accumulatedText ++ s }
      (bs ++ [.outputTextDelta responseId itemId s], st3, .next)
    else ([], st, .next)
  | .toolCallStart (some tc) =>
    let argStr := if tc.arguments = "" then "\x7b\x7d" else tc.arguments
    let parsedArgs : Json :=
      match jsonParse argStr with
      | some j => j
      | none => .obj [("raw", .str tc.arguments)]
    ([.toolCallStarted responseId tc.id tc.name parsedArgs], st, .next)
  | .toolCallStart none => ([], st, .next)
  | .toolCallResult (some tr) =>
    let status := if errTruthy tr then "error" else "success"
    let result : Option Json :=
      if errTruthy tr then none
      else
        match parsedResultOf tr with
        | .inl j => some j
        | .inr s => some (.str s)
    let errField : Option String := if errTruthy tr then tr.error else none
    let completed : EvBody := .toolCallCompleted responseId tr.id status result errField
    let (bs1, c1) := msgBodies responseId tr st.uuidCtr
    let (bs2, c2) := compBodies responseId tr c1
    let (bs3, c3) := rmBodies responseId tr c2
    (completed :: bs1 ++ bs2 ++ bs3, { st with uuidCtr := c3 }, .next)
  | .toolCallResult none => ([], st, .next)
  | .error co => ([.runError responseId (jsOrS co "An error occurred") false], st, .errored)
  | .done msgs tk =>
    let fm := msgs.getD []
    let total := tk.getD 0
    let pre : List EvBody :=
      match st.activeTextItemId with
      | some i => [.outputTextCompleted responseId i st.accumulatedText]
      | none => []
    (pre ++ [.runCompleted responseId total], st, .stop fm total)
  | .chatSaved => ([], st, .next)

/-- Process one chunk: compute its payloads, then emit them in order. -/
def processChunk (runId responseId : String) (st : EmitterSt) (c : ProviderChunk) :
    EmitterSt × StepCtl :=
  let (bs, st2, ctl) := chunkStep responseId st c
  (emitAll runId st2 bs, ctl)

/-- The provider-chunk loop (`for await ... of model.chatStream(prompt)`);
a `.next` result means the stream was exhausted without `done`/`error`. -/
def runLoop (runId responseId : String) : EmitterSt → List ProviderChunk → EmitterSt × StepCtl
  | st, [] => (st, .next)
  | st, c :: cs =>
    match processChunk runId responseId st c with
    | (st2, .next) => runLoop runId responseId st2 cs
    | (st2, .errored) => (st2, .errored)
    | (st2, .stop fm tk) => (st2, .stop fm tk)

/-! ## Transcript persistence (`agents.ts` lines 396–450) -/

/-- The request chat (`ctx.request.body`): `chatDocId`/`chatDocRev` model
`chat._id`/`chat._rev`. -/
structure ChatIn where
  chatDocId : Option String
  chatDocRev : Option String
  agentId : String
  title : String
  messages : List Message

/-- Outcome of the blocking title-generation prompt (`model.prompt`). -/
inductive TitleOutcome where
  | ok (title : String)
  | thrown (message : String)

/-- Outcome of the document-store write (`db.put`). -/
inductive PutOutcome where
  | ok (rev : String)
  | thrown (message : String)

/-- The chat document handed to `db.put` (`AgentChat`). -/
structure AgentChatDoc where
  chatId : String
  chatRev : Option String
  agentId : String
  title : String
  messages : List Message

/-- Model of `docIds.generateAgentChatID()` (opaque fresh id). -/
def generatedChatId : String :=
  "agent_chat_model"

/-- Observable outcome of one run: the emitted events, the `db.put`
invocations, the number of title prompts issued, and whether a fresh chat
id was minted. -/
structure RunResult where
  events : List StreamEvent
  putCalls : List AgentChatDoc
  titleCalls : Nat
  mintedChatId : Bool

/-- The post-loop persistence block: gated on a non-empty final message
list; mints an id for a new chat; issues the title prompt when untitled;
a `throw` from the title prompt or the store write lands in the
surrounding `catch`, which emits response-error with `retryable = false`. -/
def persistPhase (runId responseId : String) (st : EmitterSt) (chat : ChatIn)
    (fm : List Message) (tk : Nat) (titleO : TitleOutcome) (putO : PutOutcome) : RunResult :=
  if fm.length > 0 then
    let minted := !(strTruthy chat.chatDocId)
    let chatId := if strTruthy chat.chatDocId then chat.chatDocId.getD "" else generatedChatId
    let untitled := chat.title = ""
    let titleRes := if untitled then titleO else .ok chat.title
    let titleCalls := if untitled then 1 else 0
    match titleRes with
    | .thrown m =>
      { events := (emitOne runId st (.runError responseId m false)).events,
        putCalls := [], titleCalls := titleCalls, mintedChatId := minted }
    | .ok title =>
      let newChat : AgentChatDoc :=
        { chatId := chatId, chatRev := chat.chatDocRev, agentId := chat.agentId,
          title := title, messages := addDebugInformation fm }
      match putO with
      | .thrown m =>
        { events := (emitOne runId st (.runError responseId m false)).events,
          putCalls := [newChat], titleCalls := titleCalls, mintedChatId := minted }
      | .ok rev =>
        let savedBody : EvBody :=
          .runSaved responseId chatId (if rev = "" then none else some rev)
            [("tokensUsed", .num (tk : Int))]
        { events := (emitOne runId st savedBody).events,
          putCalls := [newChat], titleCalls := titleCalls, mintedChatId := minted }
  else
    { events := st.events, putCalls := [], titleCalls := 0, mintedChatId := false }

/-- The whole `agentChatStream` run: emit response-started, drive the chunk
loop, then persist (unless the `error`-chunk branch returned early). -/
def agentChatStreamModel (chat : ChatIn) (chunks : List ProviderChunk)
    (titleO : TitleOutcome) (putO : PutOutcome) : RunResult :=
  let runId := mkUuid 0
  let responseId := mkUuid 1
  let st0 : EmitterSt :=
    { sequence := 0, events := [], activeTextItemId := none,
      accumulatedText := "", uuidCtr := 2 }
  let st1 := emitOne runId st0 (.responseStarted responseId [("agentId", .str chat.agentId)])
  match runLoop runId responseId st1 chunks with
  | (st2, .errored) =>
    { events := st2.events, putCalls := [], titleCalls := 0, mintedChatId := false }
  | (st2, .stop fm tk) => persistPhase runId responseId st2 chat fm tk titleO putO
  | (st2, .next) => persistPhase runId responseId st2 chat [] 0 titleO putO

/-! ## Segment Reconciliation Engine (client, `Chatbox/index.svelte`) -/

/-- A reconciliation-side segment: text, or a component with its
rendering-suppression flag (`hidden?: boolean`, absent modelled `false`). -/
inductive AssistantSegment where
  | text (id : String) (content : String)
  | component (id : String) (component : Json) (hidden : Bool)

/-- The segment's item id. -/
def AssistantSegment.id : AssistantSegment → String
  | .text i _ => i
  | .component i _ _ => i

/-- Per-response reconciliation state (`ResponseState`). -/
structure ClientResponseState where
  responseId : String
  messageIndex : Nat
  segments : List AssistantSegment

/-- The engine's mutable module-level state: the response map, the reverse
item index, the message-to-response map, tool-call bookkeeping, and the
chat document being maintained (`updatedChat.messages`, `chat._id/_rev`). -/
structure EngineState where
  responseStates : List (String × ClientResponseState)
  itemToResponse : List (String × (String × Nat))
  messageResponseMap : List (Nat × String)
  toolCallComponentMap : List (String × String)
  componentLoading : List String
  responseStatesVersion : Nat
  activeResponseId : Option String
  messages : List Message
  chatDocId : Option String
  chatDocRev : Option String

/-- Fresh engine state over an initial message list. -/
def engInit (msgs : List Message) : EngineState :=
  { responseStates := [], itemToResponse := [], messageResponseMap := [],
    toolCallComponentMap := [], componentLoading := [], responseStatesVersion := 0,
    activeResponseId := none, messages := msgs, chatDocId := none, chatDocRev := none }

/-- `setComponentLoading` (no-op on a falsy id). -/
def setComponentLoading (st : EngineState) (componentId : String) (isLoading : Bool) :
    EngineState :=
  if componentId = "" then st
  else if isLoading then { st with componentLoading := sadd st.componentLoading componentId }
  else { st with componentLoading := sdel st.componentLoading componentId }

/-- `clearComponentLoading`. -/
def clearComponentLoading (st : EngineState) (componentId : String) : EngineState :=
  if componentId = "" then st else setComponentLoading st componentId false

/-- Register every segment of a list in the reverse index, starting at a
position. -/
def indexSegsInto (m : List (String × (String × Nat))) (rid : String) :
    List AssistantSegment → Nat → List (String × (String × Nat))
  | [], _ => m
  | seg :: rest, i => indexSegsInto (mset m seg.id (rid, i)) rid rest (i + 1)

/-- `reindexResponseSegments`. -/
def reindexResponseSegments (st : EngineState) (responseId : String) : EngineState :=
  match mget st.responseStates responseId with
  | none => st
  | some state =>
    { st with itemToResponse := indexSegsInto st.itemToResponse responseId state.segments 0 }

/-- Fallback scan of `responseStates.values()` in insertion order for an
item id (`locateSegment`'s second phase). -/
def scanStatesFor (itemId : String) :
    List (String × ClientResponseState) → Option (String × Nat)
  | [] => none
  | (_, s) :: rest =>
    match s.segments.findIdx? (fun seg => seg.id = itemId) with
    | some i => some (s.responseId, i)
    | none => scanStatesFor itemId rest

/-- `locateSegment`: reverse-index lookup with lazy repair from a full scan;
returns the mapping and the (possibly repaired) state. -/
def locateSegment (st : EngineState) (itemId : String) :
    Option (String × Nat) × EngineState :=
  match mget st.itemToResponse itemId with
  | some m => (some m, st)
  | none =>
    match scanStatesFor itemId st.responseStates with
    | some mapping =>
      (some mapping, { st with itemToResponse := mset st.itemToResponse itemId mapping })
    | none => (none, st)

/-- `pushAssistantMessage`: append an empty assistant message and map its
index to the response. -/
def pushAssistantMessage (st : EngineState) (responseId : String) : Nat × EngineState :=
  let assistantMessage : Message :=
    { role := "assistant", content := .str "", tool_calls := [], tool_call_id := none }
  let messages := st.messages ++ [assistantMessage]
  let messageIndex := messages.length - 1
  (messageIndex,
    { st with
      messages := messages
      messageResponseMap := mset st.messageResponseMap messageIndex responseId })

/-- The parts of the placeholder-encoded assistant content: non-hidden
components as placeholder tokens, trimmed non-empty text segments as-is. -/
def segParts : List AssistantSegment → List String
  | [] => []
  | .component cid _ hidden :: rest =>
    if !hidden then ("\x7b\x7btoolResult:component:" ++ cid ++ "\x7d\x7d") :: segParts rest
    else segParts rest
  | .text _ c :: rest =>
    if (jsTrim c).length ≠ 0 then jsTrim c :: segParts rest else segParts rest

/-- `refreshAssistantMessageContent`: rewrite the backing assistant message
from the response's segments. -/
def refreshAssistantMessageContent (st : EngineState) (responseId : String) : EngineState :=
  match mget st.responseStates responseId with
  | none => st
  | some state =>
    match st.messages[state.messageIndex]? with
    | none => st
    | some existing =>
      let textContent := jsTrim (joinSep "\n\n" (segParts state.segments))
      let updatedMessage : Message := { existing with content := .str textContent }
      { st with
        messages := st.messages.set state.messageIndex updatedMessage,
        messageResponseMap := mset st.messageResponseMap state.messageIndex responseId }

/-- `getOrCreateResponseState`: lazily create the `ResponseState` for a
response id when first referenced. -/
def getOrCreateResponseState (st : EngineState) (responseId : String) :
    ClientResponseState × EngineState :=
  match mget st.responseStates responseId with
  | none =>
    let (messageIndex, st2) := pushAssistantMessage st responseId
    let state : ClientResponseState :=
      { responseId := responseId, messageIndex := messageIndex, segments := [] }
    (state,
      { st2 with
        responseStates := mset st2.responseStates responseId state
        responseStatesVersion := st2.responseStatesVersion + 1 })
  | some state =>
    (state,
      { st with messageResponseMap := mset st.messageResponseMap state.messageIndex responseId })

/-- `replaceSegment`: overwrite the segment at a position, reindex, refresh. -/
def replaceSegment (st : EngineState) (responseId : String) (segmentIndex : Nat)
    (segment : AssistantSegment) : EngineState :=
  match mget st.responseStates responseId with
  | none => st
  | some state =>
    let segments := state.segments.set segmentIndex segment
    let st2 :=
      { st with responseStates := mset st.responseStates responseId { state with segments := segments } }
    let st3 := reindexResponseSegments st2 responseId
    let st4 := { st3 with responseStatesVersion := st3.responseStatesVersion + 1 }
    refreshAssistantMessageContent st4 responseId

/-- `appendSegment`: append a segment to the response, reindex, refresh. -/
def appendSegment (st : EngineState) (responseId : String)
    (segment : AssistantSegment) : EngineState :=
  let (state, st2) := getOrCreateResponseState st responseId
  let segments := state.segments ++ [segment]
  let st3 :=
    { st2 with responseStates := mset st2.responseStates responseId { state with segments := segments } }
  let st4 := reindexResponseSegments st3 responseId
  let st5 := { st4 with responseStatesVersion := st4.responseStatesVersion + 1 }
  refreshAssistantMessageContent st5 responseId

/-- `updateTextSegment`: rewrite the content of the text segment an item id
points at (no-op when the reverse index misses or the segment is not
text). -/
def updateTextSegment (st : EngineState) (itemId : String) (f : String → String) :
    EngineState :=
  match mget st.itemToResponse itemId with
  | none => st
  | some (responseId, segmentIndex) =>
    match mget st.responseStates responseId with
    | none => st
    | some state =>
      match state.segments[segmentIndex]? with
      | some (.text id content) =>
        replaceSegment st responseId segmentIndex (.text id (f content))
      | _ => st

/-- `event.responseId || activeResponseId`. -/
def effectiveResponseId (rid : String) (st : EngineState) : Option String :=
  if rid = "" then st.activeResponseId else some rid

/-- The event handler passed to `API.agentChatStream` (the reconciliation
engine's `apply`). -/
def applyEvent (st : EngineState) (e : StreamEvent) : EngineState :=
  match e.body with
  | .responseStarted rid _ =>
    let st1 := { st with activeResponseId := some rid }
    (getOrCreateResponseState st1 rid).2
  | .outputItemCreated rid item =>
    match effectiveResponseId rid st with
    | none => st
    | some responseId =>
      match item with
      | .textItem id txt _ _ => appendSegment st responseId (.text id txt)
      | .componentItem id comp _ _ => appendSegment st responseId (.component id comp false)
  | .outputTextDelta rid itemId delta =>
    match effectiveResponseId rid st with
    | none => st
    | some _ => updateTextSegment st itemId (fun content => content ++ delta)
  | .outputTextCompleted _ itemId text =>
    updateTextSegment st itemId (fun _ => text)
  | .outputItemUpdated _ itemId patch =>
    match locateSegment st itemId with
    | (none, st1) => st1
    | (some (responseId, segmentIndex), st1) =>
      match mget st1.responseStates responseId with
      | none => st1
      | some state =>
        match state.segments[segmentIndex]? with
        | none => st1
        | some current =>
          if patch.state = some "hidden" ∧ patch.replaceWith.isNone then
            let segments := state.segments.eraseIdx segmentIndex
            let st2 :=
              { st1 with
                responseStates :=
                  mset st1.responseStates responseId { state with segments := segments } }
            let st3 := { st2 with itemToResponse := mdel st2.itemToResponse itemId }
            let st4 := reindexResponseSegments st3 responseId
            let st5 := { st4 with responseStatesVersion := st4.responseStatesVersion + 1 }
            let st6 := refreshAssistantMessageContent st5 responseId
            match current with
            | .component cid _ _ => clearComponentLoading st6 cid
            | _ => st6
          else
            match patch.replaceWith with
            | some rw =>
              let replacement : AssistantSegment :=
                match rw with
                | .textItem id t _ _ => .text id t
                | .componentItem id c _ _ => .component id c false
              let st2 := replaceSegment st1 responseId segmentIndex replacement
              let st3 := { st2 with itemToResponse := mdel st2.itemToResponse itemId }
              clearComponentLoading st3 itemId
            | none =>
              match current with
              | .component cid comp hidden =>
                let updatedSegment : AssistantSegment :=
                  .component cid comp (if patch.state = some "hidden" then true else hidden)
                let st2 :=
                  if patch.state = some "hidden" then clearComponentLoading st1 cid else st1
                replaceSegment st2 responseId segmentIndex updatedSegment
              | _ => st1
  | .toolCallStarted _ callId _ args =>
    let componentId : Option String :=
      match args.get "componentId" with
      | some (.str s) => some s
      | _ =>
        match args.get "componentID" with
        | some (.str s) => some s
        | _ => none
    match componentId with
    | some s =>
      if s ≠ "" then
        let st1 := setComponentLoading st s true
        { st1 with toolCallComponentMap := mset st1.toolCallComponentMap callId s }
      else st
    | none => st
  | .toolCallCompleted _ callId _ _ _ =>
    match mget st.toolCallComponentMap callId with
    | some componentId =>
      let st1 := clearComponentLoading st componentId
      { st1 with toolCallComponentMap := mdel st1.toolCallComponentMap callId }
    | none => st
  | .runCompleted _ _ => { st with activeResponseId := none }
  | .runError _ _ _ => { st with activeResponseId := none }
  | .runSaved _ chatId revision _ =>
    { st with
      chatDocId := some chatId
      chatDocRev := match revision with | some r => some r | none => st.chatDocRev }

/-- Apply a list of events in order. -/
def applyEvents (st : EngineState) (es : List StreamEvent) : EngineState :=
  es.foldl applyEvent st

/-- The non-hidden rendering filter of `getAssistantSegments`: components
unless hidden, text segments with non-empty trimmed content. -/
def renderFilter (segs : List AssistantSegment) : List AssistantSegment :=
  segs.filter fun seg =>
    match seg with
    | .component _ _ h => !h
    | .text _ c => (jsTrim c).length > 0

/-- `getAssistantSegments`: the rendered segment list of the assistant
message at an index, with the plain-content fallback when no response
state backs it. -/
def getAssistantSegments (st : EngineState) (message : Message) (index : Nat) :
    List AssistantSegment :=
  let fallback :=
    let content := match message.content with | .str s => jsTrim s | _ => ""
    if content.length > 0 then [.text (toString index ++ "-text") content] else []
  match mget st.messageResponseMap index with
  | some responseId =>
    match mget st.responseStates responseId with
    | some state => renderFilter state.segments
    | none => fallback
  | none => fallback

/-- The rendered (non-hidden) segment view of one response
(`renderSegments(responseId)` of the spec). -/
def renderSegmentsOf (st : EngineState) (responseId : String) : List AssistantSegment :=
  match mget st.responseStates responseId with
  | some state => renderFilter state.segments
  | none => []

/-- The raw internal segment list of one response. -/
def responseSegs (st : EngineState) (responseId : String) : Option (List AssistantSegment) :=
  (mget st.responseStates responseId).map (fun s => s.segments)

/-! ## Rehydration (`rehydrateFromChatHistory`, `index.svelte` lines 111–243) -/

/-- Extract the decodable text of a tool message's content (string, or the
concatenated text parts of an array, else `""`). -/
def toolContentText : MsgContent → String
  | .str s => s
  | .parts ps =>
    String.join (ps.map fun p =>
      match p with
      | .strPart s => s
      | .objPart (some t) => t
      | .objPart none => "")
  | .absent => ""

/-- Collect `tool_call_id → JSON.parse(content || "\x7b\x7d")` over the tool
messages, ignoring malformed ones. -/
def collectToolResults (msgs : List Message) : List (String × Json) :=
  msgs.foldl
    (fun acc m =>
      if m.role = "tool" ∧ strTruthy m.tool_call_id then
        let content := toolContentText m.content
        match jsonParse (if content = "" then "\x7b\x7d" else content) with
        | some parsed => mset acc (m.tool_call_id.getD "") parsed
        | none => acc
      else acc)
    []

/-- The characters of the placeholder token prefix. -/
def tokenPrefix : List Char :=
  ("\x7b\x7btoolResult:component:").data

/-- Drop a literal prefix from a character list. -/
def dropPfx : List Char → List Char → Option (List Char)
  | [], l => some l
  | _, [] => none
  | p :: ps, c :: cs => if p = c then dropPfx ps cs else none

/-- Try to match the placeholder regex at the head of the input: the prefix,
then one or more non-brace characters (the capture), then the closing
braces.  Returns the capture and the input after the token. -/
def matchTokenAt (l : List Char) : Option (List Char × List Char) :=
  match dropPfx tokenPrefix l with
  | none => none
  | some rest =>
    let cap := rest.takeWhile (fun c => c ≠ '}')
    if cap = [] then none
    else
      match rest.drop cap.length with
      | '}' :: '}' :: r => some (cap, r)
      | _ => none

/-- Leftmost placeholder match: the text before it, the capture, and the
rest of the input after the token. -/
def findPlaceholder : List Char → Option (List Char × List Char × List Char)
  | [] => none
  | c :: rest =>
    match matchTokenAt (c :: rest) with
    | some (cap, after) => some ([], cap, after)
    | none =>
      match findPlaceholder rest with
      | some (before, cap, after) => some (c :: before, cap, after)
      | none => none

/-- Synthesized id of the `n`-th rehydrated segment of message `index`
(text flavour). -/
def histTextId (index n : Nat) : String :=
  "history-" ++ toString index ++ "-text-" ++ toString n

/-- `typeof v === "object"` (arrays, objects and `null`). -/
def jsTypeofObject : Json → Bool
  | .arr _ => true
  | .obj _ => true
  | .null => true
  | _ => false

/-- The rehydration scan of one assistant message's text: text around
placeholder tokens (after trimming) becomes text segments; each token
resolves through the collected tool results into a component segment or a
`removeComponentMessage` replacement text segment, or contributes
nothing.  Fuelled by the content length (each step consumes a token). -/
def rehydrateSegs (toolResults : List (String × Json)) (msgIndex : Nat) :
    Nat → List Char → List AssistantSegment → List AssistantSegment
  | 0, _, segs => segs
  | fuel + 1, content, segs =>
    match findPlaceholder content with
    | none =>
      let remaining := trimChars content
      if remaining ≠ [] then segs ++ [.text (histTextId msgIndex segs.length) ⟨remaining⟩]
      else segs
    | some (before, cap, after) =>
      let textBefore := trimChars before
      let segs :=
        if textBefore ≠ [] then segs ++ [.text (histTextId msgIndex segs.length) ⟨textBefore⟩]
        else segs
      let toolId := jsTrim ⟨cap⟩
      let result := if toolId ≠ "" then mget toolResults toolId else none
      let segs :=
        match result with
        | some r =>
          let comp := r.getD "component"
          let msgStr : Option String :=
            match r.get "message" with | some (.str m) => some m | _ => none
          if r.truthy && comp.truthy && !(r.getD "removeComponentMessage").truthy
              && jsTypeofObject comp then
            let cidFallback :=
              if toolId ≠ "" then toolId
              else "history-" ++ toString msgIndex ++ "-component-" ++ toString segs.length
            let cid :=
              match comp.get "componentId" with
              | some (.str s) => if s ≠ "" then s else cidFallback
              | _ => cidFallback
            segs ++ [.component cid comp false]
          else if r.truthy && (r.getD "removeComponentMessage").truthy
              && (match msgStr with | some m => m ≠ "" | none => false) then
            segs ++ [.text (histTextId msgIndex segs.length) (msgStr.getD "")]
          else segs
        | none => segs
      rehydrateSegs toolResults msgIndex fuel after segs

/-- Rehydrated segments of one message (empty for non-assistant messages and
for empty or non-string content). -/
def rehydrateMessage (toolResults : List (String × Json)) (index : Nat) (m : Message) :
    List AssistantSegment :=
  if m.role ≠ "assistant" then []
  else
    let content := match m.content with | .str s => s | _ => ""
    if content = "" then []
    else rehydrateSegs toolResults index (content.length + 1) content.data []

/-- `rehydrateFromChatHistory`: early-return on an empty message list, else
clear the engine's maps and rebuild every response state from the
persisted messages. -/
def rehydrateFromChatHistory (st : EngineState) (chatMessages : List Message) : EngineState :=
  if chatMessages.length = 0 then st
  else
    let toolResults := collectToolResults chatMessages
    let st1 :=
      { st with
        responseStates := []
        itemToResponse := []
        messageResponseMap := []
        componentLoading := [] }
    let st2 :=
      chatMessages.enum.foldl
        (fun acc (p : Nat × Message) =>
          let (index, m) := p
          let segments := rehydrateMessage toolResults index m
          if segments.length = 0 then acc
          else
            let responseId := "history-" ++ toString index
            { acc with
              responseStates := mset acc.responseStates responseId
                { responseId := responseId, messageIndex := index, segments := segments },
              messageResponseMap := mset acc.messageResponseMap index responseId,
              itemToResponse := indexSegsInto acc.itemToResponse responseId segments 0 })
        st1
    { st2 with responseStatesVersion := st2.responseStatesVersion + 1 }

/-! ## Statement-side helpers -/

/-- Segment equality ignoring synthesized ids: same flavour, same text
content respectively same component payload and hidden flag. -/
def segMatchUpToId : AssistantSegment → AssistantSegment → Bool
  | .text _ c1, .text _ c2 => c1 = c2
  | .component _ p1 h1, .component _ p2 h2 => Json.beq p1 p2 && (h1 = h2)
  | _, _ => false

/-- Pointwise segment-list equality ignoring ids. -/
def segsMatchUpToIds : List AssistantSegment → List AssistantSegment → Bool
  | [], [] => true
  | a :: ta, b :: tb => segMatchUpToId a b && segsMatchUpToIds ta tb
  | _, _ => false

/-- Wrap a payload as a wire event with fixed base fields (the engine never
reads them; reusing the same wrapper twice models a duplicate delivery of
the very same `eventId`). -/
def evOf (b : EvBody) : StreamEvent :=
  { eventId := "dup-event", runId := "run", sequence := 0, timestamp := 0, body := b }

/-- The segment the created-item handler appends for an item. -/
def segOfItem : AgentOutputItem → AssistantSegment
  | .textItem id t _ _ => .text id t
  | .componentItem id c _ _ => .component id c false

/-- Chunks that neither `return` (error) nor `break` (done) the loop. -/
def isNormalChunk : ProviderChunk → Bool
  | .error _ => false
  | .done _ _ => false
  | _ => true

/-- Payload kinds a normal chunk may emit (never terminal events). -/
def benignBody (b : EvBody) : Bool :=
  match b.kind with
  | .runErr => false
  | .completed => false
  | .saved => false
  | _ => true

/-- Rank of the three item-event kinds in the order the claim under test
asserts (created, then updated, then text-completed). -/
def itemEventRank : EvKind → Option Nat
  | .itemCreated => some 0
  | .itemUpdated => some 1
  | .textCompleted => some 2
  | _ => none

/-- Is a list of naturals nondecreasing? -/
def nondecreasing : List Nat → Bool
  | [] => true
  | [_] => true
  | a :: b :: t => a ≤ b && nondecreasing (b :: t)

/-- The per-chunk emission order asserted by the claim: the item events of
one chunk appear as created, then updated, then text-completed. -/
def claimedChunkOrder (ks : List EvKind) : Bool :=
  nondecreasing (ks.filterMap itemEventRank)

/-- A default message value for total indexing. -/
def msgDefault : Message :=
  { role := "", content := .absent, tool_calls := [], tool_call_id := none }

/-- A default chat document value for total indexing. -/
def docDefault : AgentChatDoc :=
  { chatId := "", chatRev := none, agentId := "", title := "", messages := [] }

/-! ## Map lemmas -/

theorem mget_mset_self {κ β : Type} [DecidableEq κ] (m : List (κ × β)) (k : κ) (v : β) :
    mget (mset m k v) k = some v := by
  induction m with
  | nil => simp [mget, mset]
  | cons e t ih =>
    rcases e with ⟨k1, v1⟩
    by_cases h : k1 = k
    · simp [mget, mset, h]
    · simp [mget, mset, h, ih]

theorem mget_mset_ne {κ β : Type} [DecidableEq κ] (m : List (κ × β)) (k k' : κ) (v : β)
    (h : k' ≠ k) : mget (mset m k v) k' = mget m k' := by
  induction m with
  | nil => simp [mget, mset, Ne.symm h]
  | cons e t ih =>
    rcases e with ⟨k1, v1⟩
    by_cases h1 : k1 = k
    · subst h1
      simp [mget, mset, Ne.symm h]
    · simp [mget, mset, h1, ih]

theorem mget_mdel_self {κ β : Type} [DecidableEq κ] (m : List (κ × β)) (k : κ) :
    mget (mdel m k) k = none := by
  induction m with
  | nil => simp [mget, mdel]
  | cons e t ih =>
    rcases e with ⟨k1, v1⟩
    by_cases h : k1 = k
    · simpa [mdel, h] using ih
    · simpa [mdel, mget, h] using ih

theorem mget_indexSegsInto_not_mem (m : List (String × (String × Nat))) (rid : String)
    (segs : List AssistantSegment) (i : Nat) (cid : String)
    (h : cid ∉ segs.map AssistantSegment.id) :
    mget (indexSegsInto m rid segs i) cid = mget m cid := by
  induction segs generalizing m i with
  | nil => rfl
  | cons seg t ih =>
    simp only [List.map_cons, List.mem_cons, not_or] at h
    rw [indexSegsInto, ih (mset m seg.id (rid, i)) (i + 1) h.2]
    exact mget_mset_ne _ _ _ _ h.1

/-! ## Engine-state projection lemmas -/

@[simp]
theorem setComponentLoading_responseStates (st : EngineState) (c : String) (b : Bool) :
    (setComponentLoading st c b).responseStates = st.responseStates := by
  unfold setComponentLoading
  repeat' split
  all_goals rfl

@[simp]
theorem setComponentLoading_itemToResponse (st : EngineState) (c : String) (b : Bool) :
    (setComponentLoading st c b).itemToResponse = st.itemToResponse := by
  unfold setComponentLoading
  repeat' split
  all_goals rfl

@[simp]
theorem clearComponentLoading_responseStates (st : EngineState) (c : String) :
    (clearComponentLoading st c).responseStates = st.responseStates := by
  unfold clearComponentLoading
  split
  · rfl
  · simp

@[simp]
theorem clearComponentLoading_itemToResponse (st : EngineState) (c : String) :
    (clearComponentLoading st c).itemToResponse = st.itemToResponse := by
  unfold clearComponentLoading
  split
  · rfl
  · simp

@[simp]
theorem refreshAssistantMessageContent_responseStates (st : EngineState) (r : String) :
    (refreshAssistantMessageContent st r).responseStates = st.responseStates := by
  unfold refreshAssistantMessageContent
  repeat' split
  all_goals rfl

@[simp]
theorem refreshAssistantMessageContent_itemToResponse (st : EngineState) (r : String) :
    (refreshAssistantMessageContent st r).itemToResponse = st.itemToResponse := by
  unfold refreshAssistantMessageContent
  repeat' split
  all_goals rfl

@[simp]
theorem reindexResponseSegments_responseStates (st : EngineState) (r : String) :
    (reindexResponseSegments st r).responseStates = st.responseStates := by
  unfold reindexResponseSegments
  split
  all_goals rfl

/-! ## Emitter lemmas -/

theorem emitOne_events (runId : String) (st : EmitterSt) (b : EvBody) :
    (emitOne runId st b).events =
      st.events ++ [⟨mkUuid st.uuidCtr, runId, st.sequence, 0, b⟩] := rfl

theorem emitAll_events (runId : String) (bs : List EvBody) :
    ∀ st : EmitterSt, ∃ Δ, (emitAll runId st bs).events = st.events ++ Δ ∧
      Δ.map StreamEvent.body = bs := by
  induction bs with
  | nil => intro st; exact ⟨[], by simp [emitAll], rfl⟩
  | cons b t ih =>
    intro st
    obtain ⟨Δ, hΔ, hmap⟩ := ih (emitOne runId st b)
    refine ⟨(⟨mkUuid st.uuidCtr, runId, st.sequence, 0, b⟩ : StreamEvent) :: Δ, ?_, ?_⟩
    · have h0 : emitAll runId st (b :: t) = emitAll runId (emitOne runId st b) t := rfl
      rw [h0, hΔ, emitOne_events]
      simp
    · simp [hmap]

theorem emitAll_append (runId : String) (st : EmitterSt) (bs1 bs2 : List EvBody) :
    emitAll runId st (bs1 ++ bs2) = emitAll runId (emitAll runId st bs1) bs2 :=
  List.foldl_append _ _ _ _

theorem ensureTextItem_core (respId : String) (st : EmitterSt) :
    (ensureTextItem respId st).2.1.events = st.events ∧
      (ensureTextItem respId st).2.1.sequence = st.sequence := by
  unfold ensureTextItem
  split <;> exact ⟨rfl, rfl⟩

theorem ensureTextItem_benign (respId : String) (st : EmitterSt) :
    ∀ b ∈ (ensureTextItem respId st).2.2, benignBody b = true := by
  unfold ensureTextItem
  split
  · intro b hb; simp at hb
  · intro b hb
    simp at hb
    subst hb
    rfl

theorem msgBodies_benign (respId : String) (tr : ToolResultInfo) (n : Nat) :
    ∀ b ∈ (msgBodies respId tr n).1, benignBody b = true := by
  unfold msgBodies
  split
  · intro b hb
    simp at hb
    rcases hb with rfl | rfl <;> rfl
  · intro b hb; simp at hb

theorem compBodies_benign (respId : String) (tr : ToolResultInfo) (n : Nat) :
    ∀ b ∈ (compBodies respId tr n).1, benignBody b = true := by
  unfold compBodies
  repeat' split
  all_goals intro b hb
  all_goals simp at hb
  all_goals try subst hb
  all_goals rfl

theorem rmBodies_benign (respId : String) (tr : ToolResultInfo) (n : Nat) :
    ∀ b ∈ (rmBodies respId tr n).1, benignBody b = true := by
  unfold rmBodies
  repeat' split
  all_goals intro b hb
  all_goals simp at hb
  all_goals try subst hb
  all_goals rfl

theorem benign_not_saved (b : EvBody) (h : benignBody b = true) : b.kind ≠ .saved := by
  intro hk
  unfold benignBody at h
  rw [hk] at h
  simp at h

theorem chunkStep_core (respId : String) (st : EmitterSt) (c : ProviderChunk) :
    (chunkStep respId st c).2.1.events = st.events ∧
      (chunkStep respId st c).2.1.sequence = st.sequence := by
  cases c with
  | content co =>
    simp only [chunkStep]
    rcases hE : ensureTextItem respId st with ⟨i, st2, bs⟩
    have hC := ensureTextItem_core respId st
    rw [hE] at hC
    cases hco : strTruthy co
    · exact ⟨rfl, rfl⟩
    · exact hC
  | toolCallStart tc => cases tc <;> exact ⟨rfl, rfl⟩
  | toolCallResult tr =>
    cases tr with
    | none => exact ⟨rfl, rfl⟩
    | some tr =>
      rcases h1 : msgBodies respId tr st.uuidCtr with ⟨bs1, c1⟩
      rcases h2 : compBodies respId tr c1 with ⟨bs2, c2⟩
      rcases h3 : rmBodies respId tr c2 with ⟨bs3, c3⟩
      simp [chunkStep, h1, h2, h3]
  | done msgs tk => exact ⟨rfl, rfl⟩
  | error co => exact ⟨rfl, rfl⟩
  | chatSaved => exact ⟨rfl, rfl⟩

theorem processChunk_eq (runId respId : String) (st : EmitterSt) (c : ProviderChunk) :
    processChunk runId respId st c =
      (emitAll runId (chunkStep respId st c).2.1 (chunkStep respId st c).1,
        (chunkStep respId st c).2.2) := by
  unfold processChunk
  rcases h : chunkStep respId st c with ⟨bs, st2, ctl⟩
  rfl

theorem processChunk_events (runId respId : String) (st : EmitterSt) (c : ProviderChunk) :
    ∃ Δ, (processChunk runId respId st c).1.events = st.events ++ Δ ∧
      Δ.map StreamEvent.body = (chunkStep respId st c).1 := by
  obtain ⟨Δ, hΔ, hmap⟩ := emitAll_events runId (chunkStep respId st c).1 (chunkStep respId st c).2.1
  refine ⟨Δ, ?_, hmap⟩
  rw [processChunk_eq]
  rw [hΔ, (chunkStep_core respId st c).1]

theorem msgBodies_kinds (respId : String) (tr : ToolResultInfo) (n : Nat) :
    (msgBodies respId tr n).1.map EvBody.kind =
      (match msgDirectiveOf tr with
       | some _ => [EvKind.itemCreated, EvKind.textCompleted]
       | none => []) := by
  rcases h : msgDirectiveOf tr with _ | m <;> simp [msgBodies, h, EvBody.kind]

theorem compBodies_kinds (respId : String) (tr : ToolResultInfo) (n : Nat) :
    (compBodies respId tr n).1.map EvBody.kind =
      (match compDirectiveOf tr with
       | some _ => [EvKind.itemCreated]
       | none => []) := by
  rcases h : compDirectiveOf tr with _ | c
  · simp [compBodies, h]
  · rcases h2 : compIdOf c with _ | cid <;> simp [compBodies, h, h2, EvBody.kind]

theorem rmBodies_kinds (respId : String) (tr : ToolResultInfo) (n : Nat) :
    (rmBodies respId tr n).1.map EvBody.kind =
      (match rmDirectiveOf tr with
       | some _ => [EvKind.itemUpdated]
       | none => []) := by
  rcases h : rmDirectiveOf tr with _ | ⟨cid, mo⟩
  · simp [rmBodies, h]
  · cases mo <;> simp [rmBodies, h, EvBody.kind]

theorem chunkStep_normal_ctl (respId : String) (st : EmitterSt) (c : ProviderChunk)
    (h : isNormalChunk c = true) : (chunkStep respId st c).2.2 = .next := by
  cases c with
  | content co =>
    simp only [chunkStep]
    rcases hE : ensureTextItem respId st with ⟨i, st2, bs⟩
    cases hco : strTruthy co <;> rfl
  | toolCallStart tc => cases tc <;> rfl
  | toolCallResult tr =>
    cases tr with
    | none => rfl
    | some tr =>
      rcases h1 : msgBodies respId tr st.uuidCtr with ⟨bs1, c1⟩
      rcases h2 : compBodies respId tr c1 with ⟨bs2, c2⟩
      rcases h3 : rmBodies respId tr c2 with ⟨bs3, c3⟩
      simp [chunkStep, h1, h2, h3]
  | done msgs tk => simp [isNormalChunk] at h
  | error co => simp [isNormalChunk] at h
  | chatSaved => rfl

theorem chunkStep_normal_benign (respId : String) (st : EmitterSt) (c : ProviderChunk)
    (h : isNormalChunk c = true) :
    ∀ b ∈ (chunkStep respId st c).1, benignBody b = true := by
  cases c with
  | content co =>
    simp only [chunkStep]
    rcases hE : ensureTextItem respId st with ⟨i, st2, bs⟩
    have hB := ensureTextItem_benign respId st
    rw [hE] at hB
    cases hco : strTruthy co
    · intro b hb; simp at hb
    · intro b hb
      simp at hb
      rcases hb with hb | hb
      · exact hB b hb
      · subst hb; rfl
  | toolCallStart tc =>
    cases tc with
    | none => intro b hb; simp [chunkStep] at hb
    | some tc =>
      intro b hb
      simp [chunkStep] at hb
      subst hb; rfl
  | toolCallResult tr =>
    cases tr with
    | none => intro b hb; simp [chunkStep] at hb
    | some tr =>
      simp only [chunkStep]
      rcases h1 : msgBodies respId tr st.uuidCtr with ⟨bs1, c1⟩
      rcases h2 : compBodies respId tr c1 with ⟨bs2, c2⟩
      rcases h3 : rmBodies respId tr c2 with ⟨bs3, c3⟩
      have hB1 := msgBodies_benign respId tr st.uuidCtr
      have hB2 := compBodies_benign respId tr c1
      have hB3 := rmBodies_benign respId tr c2
      rw [h1] at hB1
      rw [h2] at hB2
      rw [h3] at hB3
      intro b hb
      simp at hb
      rcases hb with rfl | hb | hb | hb
      · rfl
      · exact hB1 b hb
      · exact hB2 b hb
      · exact hB3 b hb
  | done msgs tk => simp [isNormalChunk] at h
  | error co => simp [isNormalChunk] at h
  | chatSaved => intro b hb; simp [chunkStep] at hb

theorem chunkStep_no_saved (respId : String) (st : EmitterSt) (c : ProviderChunk) :
    ∀ b ∈ (chunkStep respId st c).1, b.kind ≠ .saved := by
  cases c with
  | done msgs tk =>
    intro b hb
    simp only [chunkStep] at hb
    rcases hA : st.activeTextItemId with _ | i
    all_goals rw [hA] at hb
    all_goals simp at hb
    · subst hb; simp [EvBody.kind]
    · rcases hb with rfl | rfl <;> simp [EvBody.kind]
  | error co =>
    intro b hb
    simp [chunkStep] at hb
    subst hb; simp [EvBody.kind]
  | content co =>
    intro b hb
    exact benign_not_saved b (chunkStep_normal_benign respId st (.content co) rfl b hb)
  | toolCallStart tc =>
    intro b hb
    exact benign_not_saved b (chunkStep_normal_benign respId st (.toolCallStart tc) rfl b hb)
  | toolCallResult tr =>
    intro b hb
    exact benign_not_saved b (chunkStep_normal_benign respId st (.toolCallResult tr) rfl b hb)
  | chatSaved =>
    intro b hb
    exact benign_not_saved b (chunkStep_normal_benign respId st .chatSaved rfl b hb)

theorem chunkStep_stop (respId : String) (st : EmitterSt) (c : ProviderChunk)
    (fm : List Message) (tk : Nat)
    (h : (chunkStep respId st c).2.2 = .stop fm tk) :
    ∃ bsPre, (chunkStep respId st c).1 = bsPre ++ [.runCompleted respId tk] ∧
      ∀ b ∈ bsPre, benignBody b = true := by
  cases c with
  | done msgs tkOpt =>
    simp only [chunkStep] at h ⊢
    injection h with hfm htk
    subst htk
    rcases hA : st.activeTextItemId with _ | i
    · exact ⟨[], rfl, by simp⟩
    · refine ⟨[.outputTextCompleted respId i st.accumulatedText], rfl, ?_⟩
      intro b hb
      simp at hb
      subst hb
      rfl
  | content co =>
    exact absurd h (by rw [chunkStep_normal_ctl respId st (.content co) rfl]; simp)
  | toolCallStart tc =>
    exact absurd h (by rw [chunkStep_normal_ctl respId st (.toolCallStart tc) rfl]; simp)
  | toolCallResult tr =>
    exact absurd h (by rw [chunkStep_normal_ctl respId st (.toolCallResult tr) rfl]; simp)
  | chatSaved =>
    exact absurd h (by rw [chunkStep_normal_ctl respId st .chatSaved rfl]; simp)
  | error co => simp [chunkStep] at h

/-! ## Loop lemmas -/

theorem runLoop_append_normal (runId respId : String) (pre : List ProviderChunk) :
    ∀ (st : EmitterSt) (cs : List ProviderChunk), (∀ c ∈ pre, isNormalChunk c = true) →
      ∃ st2, runLoop runId respId st (pre ++ cs) = runLoop runId respId st2 cs ∧
        ∃ Δ, st2.events = st.events ++ Δ ∧ ∀ e ∈ Δ, benignBody e.body = true := by
  induction pre with
  | nil =>
    intro st cs _
    exact ⟨st, by simp, [], by simp, by simp⟩
  | cons c t ih =>
    intro st cs h
    have hc : isNormalChunk c = true := h c (by simp)
    have ht : ∀ x ∈ t, isNormalChunk x = true := fun x hx => h x (by simp [hx])
    obtain ⟨Δ1, hΔ1, hbody1⟩ := processChunk_events runId respId st c
    have hctl : (processChunk runId respId st c).2 = .next := by
      rw [processChunk_eq]
      exact chunkStep_normal_ctl respId st c hc
    have hstep : runLoop runId respId st ((c :: t) ++ cs) =
        runLoop runId respId (processChunk runId respId st c).1 (t ++ cs) := by
      show runLoop runId respId st (c :: (t ++ cs)) = _
      rw [runLoop]
      rcases hp : processChunk runId respId st c with ⟨st2, ctl⟩
      rw [hp] at hctl
      simp at hctl
      subst hctl
      rfl
    obtain ⟨st2, hrec, Δ2, hΔ2, hben2⟩ := ih (processChunk runId respId st c).1 cs ht
    refine ⟨st2, by rw [hstep, hrec], Δ1 ++ Δ2, ?_, ?_⟩
    · rw [hΔ2, hΔ1, List.append_assoc]
    · intro e he
      rcases List.mem_append.mp he with he | he
      · have : e.body ∈ (chunkStep respId st c).1 := by
          rw [← hbody1]
          exact List.mem_map_of_mem _ he
        exact chunkStep_normal_benign respId st c hc e.body this
      · exact hben2 e he

theorem runLoop_events_ext (runId respId : String) :
    ∀ (cs : List ProviderChunk) (st : EmitterSt),
      ∃ Δ, (runLoop runId respId st cs).1.events = st.events ++ Δ := by
  intro cs
  induction cs with
  | nil => intro st; exact ⟨[], by simp [runLoop]⟩
  | cons c t ih =>
    intro st
    obtain ⟨Δ1, hΔ1, _⟩ := processChunk_events runId respId st c
    rw [runLoop]
    rcases hp : processChunk runId respId st c with ⟨st1, ctl⟩
    rw [hp] at hΔ1
    cases ctl with
    | next =>
      obtain ⟨Δ2, hΔ2⟩ := ih st1
      refine ⟨Δ1 ++ Δ2, ?_⟩
      simp at hΔ1
      rw [hΔ2, hΔ1, List.append_assoc]
    | errored => exact ⟨Δ1, hΔ1⟩
    | stop fm tk => exact ⟨Δ1, hΔ1⟩

theorem runLoop_saved_mem (runId respId : String) :
    ∀ (cs : List ProviderChunk) (st : EmitterSt) (e : StreamEvent),
      e ∈ (runLoop runId respId st cs).1.events → isRunSaved e = true → e ∈ st.events := by
  intro cs
  induction cs with
  | nil => intro st e he _; simpa [runLoop] using he
  | cons c t ih =>
    intro st e he hs
    obtain ⟨Δ1, hΔ1, hbody1⟩ := processChunk_events runId respId st c
    rw [runLoop] at he
    rcases hp : processChunk runId respId st c with ⟨st1, ctl⟩
    rw [hp] at hΔ1 he
    have hstep : e ∈ st1.events → e ∈ st.events := by
      intro h1
      rw [hΔ1] at h1
      rcases List.mem_append.mp h1 with h1 | h1
      · exact h1
      · exfalso
        have hbmem : e.body ∈ (chunkStep respId st c).1 := by
          rw [← hbody1]
          exact List.mem_map_of_mem _ h1
        have := chunkStep_no_saved respId st c e.body hbmem
        unfold isRunSaved StreamEvent.kind at hs
        simp at hs
        exact this hs
    cases ctl with
    | next => exact hstep (ih st1 e he hs)
    | errored => exact hstep he
    | stop fm tk => exact hstep he

theorem runLoop_stop_last (runId respId : String) :
    ∀ (cs : List ProviderChunk) (st st2 : EmitterSt) (fm : List Message) (tk : Nat),
      runLoop runId respId st cs = (st2, .stop fm tk) →
        ∃ A ev, st2.events = A ++ [ev] ∧ isRunCompleted ev = true := by
  intro cs
  induction cs with
  | nil =>
    intro st st2 fm tk h
    simp [runLoop] at h
  | cons c t ih =>
    intro st st2 fm tk h
    rw [runLoop] at h
    rcases hp : processChunk runId respId st c with ⟨st1, ctl⟩
    rw [hp] at h
    cases ctl with
    | next => exact ih st1 st2 fm tk h
    | errored => simp at h
    | stop fm1 tk1 =>
      simp at h
      obtain ⟨hst, hfm, htk⟩ := h
      have heq := processChunk_eq runId respId st c
      rw [hp] at heq
      have hctl : (chunkStep respId st c).2.2 = .stop fm1 tk1 := by
        have h2 := congrArg Prod.snd heq
        simp at h2
        exact h2.symm
      have hst1 : st1 = emitAll runId (chunkStep respId st c).2.1 (chunkStep respId st c).1 := by
        have h2 := congrArg Prod.fst heq
        simpa using h2
      obtain ⟨bsPre, hbs, _⟩ := chunkStep_stop respId st c fm1 tk1 hctl
      refine ⟨(emitAll runId (chunkStep respId st c).2.1 bsPre).events,
        ⟨mkUuid (emitAll runId (chunkStep respId st c).2.1 bsPre).uuidCtr, runId,
          (emitAll runId (chunkStep respId st c).2.1 bsPre).sequence, 0,
          .runCompleted respId tk1⟩, ?_, rfl⟩
      rw [← hst, hst1, hbs, emitAll_append]
      rfl

/-! ## Sequence-number invariant -/

/-- The emitted sequence numbers so far are exactly `0, 1, …, sequence-1`. -/
def seqInv (st : EmitterSt) : Prop :=
  st.events.map (fun e => e.sequence) = List.range st.sequence

theorem seqInv_emitOne (runId : String) (st : EmitterSt) (b : EvBody) (h : seqInv st) :
    seqInv (emitOne runId st b) := by
  unfold seqInv at h ⊢
  rw [emitOne_events]
  show List.map _ _ = List.range (st.sequence + 1)
  rw [List.map_append, h, List.range_succ]
  rfl

theorem seqInv_emitAll (runId : String) (bs : List EvBody) :
    ∀ st : EmitterSt, seqInv st → seqInv (emitAll runId st bs) := by
  induction bs with
  | nil => intro st h; exact h
  | cons b t ih =>
    intro st h
    exact ih (emitOne runId st b) (seqInv_emitOne runId st b h)

theorem seqInv_processChunk (runId respId : String) (st : EmitterSt) (c : ProviderChunk)
    (h : seqInv st) : seqInv (processChunk runId respId st c).1 := by
  rw [processChunk_eq]
  apply seqInv_emitAll
  unfold seqInv
  rw [(chunkStep_core respId st c).1, (chunkStep_core respId st c).2]
  exact h

theorem seqInv_runLoop (runId respId : String) :
    ∀ (cs : List ProviderChunk) (st : EmitterSt), seqInv st →
      seqInv (runLoop runId respId st cs).1 := by
  intro cs
  induction cs with
  | nil => intro st h; exact h
  | cons c t ih =>
    intro st h
    rw [runLoop]
    have h1 := seqInv_processChunk runId respId st c h
    rcases hp : processChunk runId respId st c with ⟨st1, ctl⟩
    rw [hp] at h1
    cases ctl with
    | next => exact ih st1 h1
    | errored => exact h1
    | stop fm tk => exact h1

theorem persistPhase_events_cases (runId respId : String) (st : EmitterSt) (chat : ChatIn)
    (fm : List Message) (tk : Nat) (titleO : TitleOutcome) (putO : PutOutcome) :
    (persistPhase runId respId st chat fm tk titleO putO).events = st.events ∨
      ∃ b, (persistPhase runId respId st chat fm tk titleO putO).events =
        (emitOne runId st b).events := by
  by_cases hfm : fm.length > 0
  · cases hT : (if chat.title = "" then titleO else TitleOutcome.ok chat.title) with
    | thrown m =>
      right
      refine ⟨.runError respId m false, ?_⟩
      simp only [persistPhase, if_pos hfm, hT]
    | ok title =>
      cases putO with
      | thrown m =>
        right
        refine ⟨.runError respId m false, ?_⟩
        simp only [persistPhase, if_pos hfm, hT]
      | ok rev =>
        right
        refine ⟨.runSaved respId
          (if strTruthy chat.chatDocId = true then chat.chatDocId.getD "" else generatedChatId)
          (if rev = "" then none else some rev) [("tokensUsed", Json.num (tk : Int))], ?_⟩
        simp only [persistPhase, if_pos hfm, hT]
  · left
    simp only [persistPhase, if_neg hfm]

theorem persistPhase_seqRange (runId respId : String) (st : EmitterSt) (chat : ChatIn)
    (fm : List Message) (tk : Nat) (titleO : TitleOutcome) (putO : PutOutcome)
    (h : seqInv st) :
    ∃ n, (persistPhase runId respId st chat fm tk titleO putO).events.map
      (fun e => e.sequence) = List.range n := by
  rcases persistPhase_events_cases runId respId st chat fm tk titleO putO with hc | ⟨b, hc⟩
  · exact ⟨st.sequence, by rw [hc]; exact h⟩
  · exact ⟨st.sequence + 1, by rw [hc]; exact seqInv_emitOne runId st b h⟩

theorem persistPhase_events_ext (runId respId : String) (st : EmitterSt) (chat : ChatIn)
    (fm : List Message) (tk : Nat) (titleO : TitleOutcome) (putO : PutOutcome) :
    ∃ Δ, (persistPhase runId respId st chat fm tk titleO putO).events = st.events ++ Δ := by
  rcases persistPhase_events_cases runId respId st chat fm tk titleO putO with hc | ⟨b, hc⟩
  · exact ⟨[], by rw [hc]; simp⟩
  · exact ⟨_, by rw [hc, emitOne_events]⟩

theorem persistPhase_empty (runId respId : String) (st : EmitterSt) (chat : ChatIn)
    (tk : Nat) (titleO : TitleOutcome) (putO : PutOutcome) :
    persistPhase runId respId st chat [] tk titleO putO =
      { events := st.events, putCalls := [], titleCalls := 0, mintedChatId := false } := by
  simp only [persistPhase]
  simp

theorem getLast?_append_singleton {α : Type} (A : List α) (x : α) :
    (A ++ [x]).getLast? = some x :=
  List.getLast?_concat _

theorem benign_kinds (b : EvBody) (h : benignBody b = true) :
    b.kind ≠ .runErr ∧ b.kind ≠ .completed ∧ b.kind ≠ .saved := by
  unfold benignBody at h
  cases hk : b.kind <;> rw [hk] at h <;> simp_all

/-- A concrete user message for witness runs. -/
def wUserMsg : Message :=
  { role := "user", content := .str "hi", tool_calls := [], tool_call_id := none }

/-- A concrete titled chat request with an existing id. -/
def wChatT : ChatIn :=
  { chatDocId := some "c1", chatDocRev := none, agentId := "a1", title := "T", messages := [] }

/-- A concrete untitled chat request without an id. -/
def wChatU : ChatIn :=
  { chatDocId := none, chatDocRev := none, agentId := "a1", title := "", messages := [] }

/-- A concrete successful provider stream: one content chunk, then done. -/
def wChunksOk : List ProviderChunk :=
  [.content (some "Hi"), .done (some [wUserMsg]) (some 2)]

/-- The initial emitter state of a run. -/
def emitterInit : EmitterSt :=
  { sequence := 0, events := [], activeTextItemId := none, accumulatedText := "", uuidCtr := 2 }

/-- The state right after the unconditional response-started emission. -/
def startedSt (agentId : String) : EmitterSt :=
  emitOne (mkUuid 0) emitterInit (.responseStarted (mkUuid 1) [("agentId", .str agentId)])

theorem agentChatStreamModel_eq (chat : ChatIn) (chunks : List ProviderChunk)
    (titleO : TitleOutcome) (putO : PutOutcome) :
    agentChatStreamModel chat chunks titleO putO =
      (match runLoop (mkUuid 0) (mkUuid 1) (startedSt chat.agentId) chunks with
       | (st2, .errored) =>
         ({ events := st2.events, putCalls := [], titleCalls := 0,
            mintedChatId := false } : RunResult)
       | (st2, .stop fm tk) => persistPhase (mkUuid 0) (mkUuid 1) st2 chat fm tk titleO putO
       | (st2, .next) => persistPhase (mkUuid 0) (mkUuid 1) st2 chat [] 0 titleO putO) := rfl

theorem startedSt_events (agentId : String) :
    (startedSt agentId).events =
      [⟨mkUuid 2, mkUuid 0, 0, 0, .responseStarted (mkUuid 1) [("agentId", .str agentId)]⟩] :=
  rfl

theorem startedSt_seqInv (agentId : String) : seqInv (startedSt agentId) := rfl

/-- Common decomposition of a whole run: the result events extend the loop
events, which extend the single response-started event; the loop state
satisfies the sequence invariant; and the overall events are numbered
`0, 1, …`. -/
theorem runResult_decomp (chat : ChatIn) (chunks : List ProviderChunk)
    (titleO : TitleOutcome) (putO : PutOutcome) :
    ∃ st2 ctl,
      runLoop (mkUuid 0) (mkUuid 1) (startedSt chat.agentId) chunks = (st2, ctl) ∧
      (∃ Δ, (agentChatStreamModel chat chunks titleO putO).events = st2.events ++ Δ) ∧
      (∃ ΔL, st2.events =
        ⟨mkUuid 2, mkUuid 0, 0, 0,
          .responseStarted (mkUuid 1) [("agentId", .str chat.agentId)]⟩ :: ΔL) ∧
      seqInv st2 ∧
      (∃ n, (agentChatStreamModel chat chunks titleO putO).events.map
        (fun e => e.sequence) = List.range n) := by
  obtain ⟨st2, ctl, hL⟩ :
      ∃ st2 ctl, runLoop (mkUuid 0) (mkUuid 1) (startedSt chat.agentId) chunks = (st2, ctl) :=
    ⟨_, _, rfl⟩
  have hSeq2 : seqInv st2 := by
    have h := seqInv_runLoop (mkUuid 0) (mkUuid 1) chunks (startedSt chat.agentId)
      (startedSt_seqInv chat.agentId)
    rw [hL] at h
    exact h
  have hExtL : ∃ ΔL, st2.events =
      ⟨mkUuid 2, mkUuid 0, 0, 0,
        .responseStarted (mkUuid 1) [("agentId", .str chat.agentId)]⟩ :: ΔL := by
    obtain ⟨ΔL, hΔL⟩ := runLoop_events_ext (mkUuid 0) (mkUuid 1) chunks (startedSt chat.agentId)
    rw [hL] at hΔL
    exact ⟨ΔL, by rw [hΔL, startedSt_events]; rfl⟩
  refine ⟨st2, ctl, hL, ?_, hExtL, hSeq2, ?_⟩
  · rw [agentChatStreamModel_eq, hL]
    cases ctl with
    | errored => exact ⟨[], by simp⟩
    | next => exact persistPhase_events_ext _ _ _ _ _ _ _ _
    | stop fm tk => exact persistPhase_events_ext _ _ _ _ _ _ _ _
  · rw [agentChatStreamModel_eq, hL]
    cases ctl with
    | errored => exact ⟨st2.sequence, hSeq2⟩
    | next => exact persistPhase_seqRange _ _ _ _ _ _ _ _ hSeq2
    | stop fm tk => exact persistPhase_seqRange _ _ _ _ _ _ _ _ hSeq2

/-- C7: for every run, the emitted sequence numbers are strictly increasing
with no repeats; response-started is the first event and carries sequence
0; and any response-saved event appears strictly after a
response-completed event. -/
theorem C7_sequence_invariant (chat : ChatIn) (chunks : List ProviderChunk)
    (titleO : TitleOutcome) (putO : PutOutcome) :
    ((agentChatStreamModel chat chunks titleO putO).events.map
        (fun e => e.sequence)).Pairwise (· < ·) ∧
    (∃ e rest, (agentChatStreamModel chat chunks titleO putO).events = e :: rest ∧
      isResponseStarted e = true ∧ e.sequence = 0) ∧
    (∀ (i : Nat) (e : StreamEvent),
      (agentChatStreamModel chat chunks titleO putO).events[i]? = some e →
      isRunSaved e = true →
      ∃ (j : Nat) (e2 : StreamEvent), j < i ∧
        (agentChatStreamModel chat chunks titleO putO).events[j]? = some e2 ∧
        isRunCompleted e2 = true) := by
  obtain ⟨st2, ctl, hL, ⟨Δp, hΔp⟩, ⟨ΔL, hΔL⟩, hSeq2, n, hrange⟩ :=
    runResult_decomp chat chunks titleO putO
  refine ⟨?_, ?_, ?_⟩
  · rw [hrange]
    exact List.pairwise_lt_range n
  · refine ⟨⟨mkUuid 2, mkUuid 0, 0, 0,
      .responseStarted (mkUuid 1) [("agentId", .str chat.agentId)]⟩, ΔL ++ Δp, ?_, rfl, rfl⟩
    rw [hΔp, hΔL]
    rfl
  · intro i e hi hs
    have hNoSavedLoop : ∀ x ∈ st2.events, isRunSaved x = false := by
      intro x hx
      by_contra hxs
      simp at hxs
      have hx1 := runLoop_saved_mem (mkUuid 0) (mkUuid 1) chunks (startedSt chat.agentId) x
        (by rw [hL]; exact hx) hxs
      rw [startedSt_events] at hx1
      simp at hx1
      rw [hx1] at hxs
      simp [isRunSaved, StreamEvent.kind, EvBody.kind] at hxs
    have hiGe : st2.events.length ≤ i := by
      by_contra hlt
      push_neg at hlt
      have : (agentChatStreamModel chat chunks titleO putO).events[i]? = st2.events[i]? := by
        rw [hΔp, List.getElem?_append, if_pos hlt]
      rw [this] at hi
      have hmem : e ∈ st2.events := List.getElem?_mem hi
      rw [hNoSavedLoop e hmem] at hs
      exact absurd hs (by decide)
    cases ctl with
    | errored =>
      exfalso
      simp only [agentChatStreamModel_eq, hL] at hi
      have hmem : e ∈ st2.events := List.getElem?_mem hi
      rw [hNoSavedLoop e hmem] at hs
      exact absurd hs (by decide)
    | next =>
      exfalso
      simp only [agentChatStreamModel_eq, hL, persistPhase_empty] at hi
      have hmem : e ∈ st2.events := List.getElem?_mem hi
      rw [hNoSavedLoop e hmem] at hs
      exact absurd hs (by decide)
    | stop fm tk =>
      obtain ⟨A, ev, hA, hev⟩ :=
        runLoop_stop_last (mkUuid 0) (mkUuid 1) chunks (startedSt chat.agentId) st2 fm tk hL
      refine ⟨A.length, ev, ?_, ?_, hev⟩
      · have : st2.events.length = A.length + 1 := by rw [hA]; simp
        omega
      · rw [hΔp]
        have h1 : A.length < st2.events.length := by rw [hA]; simp
        rw [List.getElem?_append, if_pos h1, hA, List.getElem?_append,
          if_neg (lt_irrefl _)]
        simp

/-- C7 witness: a concrete successful run with a saved event, checked
against the invariant. -/
theorem C7_sequence_invariant_witness :
    ((agentChatStreamModel wChatT wChunksOk (.ok "t") (.ok "r1")).events.map
        (fun e => e.sequence)).Pairwise (· < ·) ∧
    (∃ (j : Nat) (e2 : StreamEvent), j < 5 ∧
      (agentChatStreamModel wChatT wChunksOk (.ok "t") (.ok "r1")).events[j]? = some e2 ∧
      isRunCompleted e2 = true) := by
  have h := C7_sequence_invariant wChatT wChunksOk (.ok "t") (.ok "r1")
  refine ⟨h.1, ?_⟩
  exact h.2.2 5 _ (by rfl) (by rfl)

theorem isRunError_false_of_kind (e : StreamEvent) (h : e.body.kind ≠ .runErr) :
    isRunError e = false := by
  simp [isRunError, StreamEvent.kind]
  exact h

theorem isRunSaved_false_of_kind (e : StreamEvent) (h : e.body.kind ≠ .saved) :
    isRunSaved e = false := by
  simp [isRunSaved, StreamEvent.kind]
  exact h

theorem runLoop_error_step (runId respId : String) (st : EmitterSt) (co : Option String)
    (post : List ProviderChunk) :
    runLoop runId respId st (.error co :: post) =
      (emitOne runId st (.runError respId (jsOrS co "An error occurred") false),
        .errored) := rfl

theorem runLoop_done_step (runId respId : String) (st : EmitterSt)
    (msgsOpt : Option (List Message)) (tkOpt : Option Nat) (post : List ProviderChunk) :
    runLoop runId respId st (.done msgsOpt tkOpt :: post) =
      (emitAll runId st
        ((match st.activeTextItemId with
          | some i => [.outputTextCompleted respId i st.accumulatedText]
          | none => []) ++ [.runCompleted respId (tkOpt.getD 0)]),
        .stop (msgsOpt.getD []) (tkOpt.getD 0)) := rfl

/-- The loop on a benign prefix followed by a `done` chunk: it stops with the
chunk's payload, the events extend the entry events by benign events plus a
final response-completed. -/
theorem runLoop_done_decomp (runId respId : String) (pre : List ProviderChunk)
    (st : EmitterSt) (msgsOpt : Option (List Message)) (tkOpt : Option Nat)
    (post : List ProviderChunk) (hpre : ∀ c ∈ pre, isNormalChunk c = true) :
    ∃ st3, runLoop runId respId st (pre ++ .done msgsOpt tkOpt :: post) =
        (st3, .stop (msgsOpt.getD []) (tkOpt.getD 0)) ∧
      ∃ A ev, st3.events = st.events ++ A ++ [ev] ∧
        ev.body = .runCompleted respId (tkOpt.getD 0) ∧
        ∀ e ∈ A, benignBody e.body = true := by
  obtain ⟨st2, hrun, Δ, hΔ, hben⟩ :=
    runLoop_append_normal runId respId pre st (.done msgsOpt tkOpt :: post) hpre
  rw [runLoop_done_step] at hrun
  rcases hA : st2.activeTextItemId with _ | i
  all_goals rw [hA] at hrun
  · refine ⟨_, hrun, Δ,
      ⟨mkUuid st2.uuidCtr, runId, st2.sequence, 0,
        .runCompleted respId (tkOpt.getD 0)⟩, ?_, rfl, hben⟩
    show (emitOne runId st2 _).events = _
    rw [emitOne_events, hΔ]
  · obtain ⟨ΔX, hΔX, hmapX⟩ :=
      emitAll_events runId [EvBody.outputTextCompleted respId i st2.accumulatedText] st2
    refine ⟨_, hrun, Δ ++ ΔX,
      ⟨mkUuid (emitAll runId st2
          [EvBody.outputTextCompleted respId i st2.accumulatedText]).uuidCtr, runId,
        (emitAll runId st2
          [EvBody.outputTextCompleted respId i st2.accumulatedText]).sequence, 0,
        .runCompleted respId (tkOpt.getD 0)⟩, ?_, rfl, ?_⟩
    · show (emitAll runId st2 ([EvBody.outputTextCompleted respId i st2.accumulatedText] ++
        [EvBody.runCompleted respId (tkOpt.getD 0)])).events = _
      rw [emitAll_append]
      show (emitOne runId _ _).events = _
      rw [emitOne_events, hΔX, hΔ]
      simp [List.append_assoc]
    · intro e he
      rcases List.mem_append.mp he with he | he
      · exact hben e he
      · have hbm : e.body ∈ [EvBody.outputTextCompleted respId i st2.accumulatedText] := by
          rw [← hmapX]
          exact List.mem_map_of_mem _ he
        simp at hbm
        rw [hbm]
        rfl

/-- C5: a provider error chunk (with a non-empty message, after any normal
prefix) produces exactly one response-error event carrying the chunk's
message with `retryable = false`; it is the last event of the run, and no
persistence happens: no store write, no title prompt, no minted id, no
response-saved event. -/
theorem C5_provider_error_termination (chat : ChatIn) (pre post : List ProviderChunk)
    (msg : String) (titleO : TitleOutcome) (putO : PutOutcome)
    (hpre : ∀ c ∈ pre, isNormalChunk c = true) (hmsg : msg ≠ "") :
    ((agentChatStreamModel chat (pre ++ .error (some msg) :: post) titleO putO).events.filter
        isRunError).length = 1 ∧
    (∃ e, (agentChatStreamModel chat (pre ++ .error (some msg) :: post)
        titleO putO).events.getLast? = some e ∧
      e.body = .runError (mkUuid 1) msg false) ∧
    (agentChatStreamModel chat (pre ++ .error (some msg) :: post) titleO putO).putCalls = [] ∧
    (agentChatStreamModel chat (pre ++ .error (some msg) :: post) titleO putO).titleCalls = 0 ∧
    (agentChatStreamModel chat (pre ++ .error (some msg) :: post)
        titleO putO).mintedChatId = false ∧
    ∀ e ∈ (agentChatStreamModel chat (pre ++ .error (some msg) :: post) titleO putO).events,
      isRunSaved e = false := by
  obtain ⟨st2, hrun, Δ, hΔ, hben⟩ :=
    runLoop_append_normal (mkUuid 0) (mkUuid 1) pre (startedSt chat.agentId)
      (.error (some msg) :: post) hpre
  rw [runLoop_error_step] at hrun
  have hj : jsOrS (some msg) "An error occurred" = msg := by
    simp [jsOrS, hmsg]
  rw [hj] at hrun
  have hR : agentChatStreamModel chat (pre ++ .error (some msg) :: post) titleO putO =
      { events := (emitOne (mkUuid 0) st2 (.runError (mkUuid 1) msg false)).events,
        putCalls := [], titleCalls := 0, mintedChatId := false } := by
    rw [agentChatStreamModel_eq, hrun]
  have hev : (agentChatStreamModel chat (pre ++ .error (some msg) :: post)
      titleO putO).events = (startedSt chat.agentId).events ++ Δ ++
        [⟨mkUuid st2.uuidCtr, mkUuid 0, st2.sequence, 0, .runError (mkUuid 1) msg false⟩] := by
    rw [hR, emitOne_events, hΔ]
  have hstarted : (startedSt chat.agentId).events.filter isRunError = [] := by
    rw [startedSt_events]
    rfl
  have hΔfilter : Δ.filter isRunError = [] := by
    rw [List.filter_eq_nil_iff]
    intro e he
    rw [isRunError_false_of_kind e (benign_kinds e.body (hben e he)).1]
    simp
  refine ⟨?_, ?_, ?_, ?_, ?_, ?_⟩
  · rw [hev, List.filter_append, List.filter_append, hstarted, hΔfilter]
    rfl
  · rw [hev]
    exact ⟨_, getLast?_append_singleton _ _, rfl⟩
  · rw [hR]
  · rw [hR]
  · rw [hR]
  · intro e he
    rw [hev] at he
    simp only [List.append_assoc, List.mem_append, List.mem_cons, List.mem_singleton] at he
    rcases he with he | he | he
    · rw [startedSt_events] at he
      simp at he
      rw [he]
      rfl
    · exact isRunSaved_false_of_kind e (benign_kinds e.body (hben e he)).2.2
    · simp at he
      rw [he]
      rfl

/-- C5 witness: a concrete erroring run. -/
theorem C5_provider_error_termination_witness :
    ((agentChatStreamModel wChatU [.content (some "x"), .error (some "boom")]
        (.ok "t") (.ok "r")).events.filter isRunError).length = 1 ∧
    (agentChatStreamModel wChatU [.content (some "x"), .error (some "boom")]
        (.ok "t") (.ok "r")).putCalls = [] := by
  have h := C5_provider_error_termination wChatU [.content (some "x")] [] "boom"
    (.ok "t") (.ok "r") (by intro c hc; simp at hc; rw [hc]; rfl) (by decide)
  exact ⟨h.1, h.2.2.1⟩

/-- C10: a `done` chunk whose final message list is empty or absent still
produces response-completed (as the last event), but the run performs no
persistence at all: no chat id is minted, no title prompt is issued, no
store write happens, and no response-saved event is emitted. -/
theorem C10_done_empty_no_persistence (chat : ChatIn) (pre post : List ProviderChunk)
    (msgsOpt : Option (List Message)) (tkOpt : Option Nat)
    (titleO : TitleOutcome) (putO : PutOutcome)
    (hpre : ∀ c ∈ pre, isNormalChunk c = true) (hempty : msgsOpt.getD [] = []) :
    (∃ e, (agentChatStreamModel chat (pre ++ .done msgsOpt tkOpt :: post)
        titleO putO).events.getLast? = some e ∧
      e.body = .runCompleted (mkUuid 1) (tkOpt.getD 0)) ∧
    (agentChatStreamModel chat (pre ++ .done msgsOpt tkOpt :: post)
        titleO putO).putCalls = [] ∧
    (agentChatStreamModel chat (pre ++ .done msgsOpt tkOpt :: post)
        titleO putO).titleCalls = 0 ∧
    (agentChatStreamModel chat (pre ++ .done msgsOpt tkOpt :: post)
        titleO putO).mintedChatId = false ∧
    ∀ e ∈ (agentChatStreamModel chat (pre ++ .done msgsOpt tkOpt :: post) titleO putO).events,
      isRunSaved e = false := by
  obtain ⟨st3, hrun, A, ev, hA, hevb, hbenA⟩ :=
    runLoop_done_decomp (mkUuid 0) (mkUuid 1) pre (startedSt chat.agentId)
      msgsOpt tkOpt post hpre
  rw [hempty] at hrun
  have hR : agentChatStreamModel chat (pre ++ .done msgsOpt tkOpt :: post) titleO putO =
      { events := st3.events, putCalls := [], titleCalls := 0, mintedChatId := false } := by
    rw [agentChatStreamModel_eq, hrun]
    exact persistPhase_empty (mkUuid 0) (mkUuid 1) st3 chat (tkOpt.getD 0) titleO putO
  refine ⟨⟨ev, ?_, hevb⟩, by rw [hR], by rw [hR], by rw [hR], ?_⟩
  · rw [hR, hA]
    exact getLast?_append_singleton _ _
  · intro e he
    rw [hR, hA] at he
    simp only [List.append_assoc, List.mem_append, List.mem_cons, List.mem_singleton] at he
    rcases he with he | he | he
    · rw [startedSt_events] at he
      simp at he
      rw [he]
      rfl
    · exact isRunSaved_false_of_kind e (benign_kinds e.body (hbenA e he)).2.2
    · simp at he
      rw [he]
      apply isRunSaved_false_of_kind
      rw [hevb]
      simp [EvBody.kind]

/-- C10 witness: a concrete run whose `done` chunk has no messages. -/
theorem C10_done_empty_no_persistence_witness :
    (agentChatStreamModel wChatU [.content (some "x"), .done none none]
        (.ok "t") (.ok "r")).putCalls = [] ∧
    (agentChatStreamModel wChatU [.content (some "x"), .done none none]
        (.ok "t") (.ok "r")).titleCalls = 0 ∧
    (agentChatStreamModel wChatU [.content (some "x"), .done none none]
        (.ok "t") (.ok "r")).mintedChatId = false := by
  have h := C10_done_empty_no_persistence wChatU [.content (some "x")] [] none none
    (.ok "t") (.ok "r") (by intro c hc; simp at hc; rw [hc]; rfl) (by rfl)
  exact ⟨h.2.1, h.2.2.1, h.2.2.2.1⟩

/-- C6 counterexample: in a successfully completed run of an untitled chat,
a failing title-generation prompt does prevent the chat document from
being saved — `db.put` is never invoked, no response-saved is emitted, and
the run ends with a response-error instead (refuting the claim that the
chat is persisted with an empty title). -/
theorem C6_title_failure_counterexample :
    (agentChatStreamModel wChatU [.done (some [wUserMsg]) (some 3)]
        (.thrown "title failure") (.ok "rev1")).putCalls = [] ∧
    (agentChatStreamModel wChatU [.done (some [wUserMsg]) (some 3)]
        (.thrown "title failure") (.ok "rev1")).events.filter isRunSaved = [] ∧
    ((agentChatStreamModel wChatU [.done (some [wUserMsg]) (some 3)]
        (.thrown "title failure") (.ok "rev1")).events.getLast?.map isRunError) = some true :=
  ⟨rfl, rfl, rfl⟩

/-- C6 (amended): for a successfully completed run of an untitled chat, a
failure of the title-generation prompt aborts persistence entirely: the
title prompt is issued once, `db.put` is never invoked, no response-saved
is emitted, and the failure surfaces as the final response-error event
with `retryable = false`. -/
theorem C6_title_failure_aborts_persistence (chat : ChatIn) (pre post : List ProviderChunk)
    (ms : List Message) (tkOpt : Option Nat) (putO : PutOutcome) (errM : String)
    (hpre : ∀ c ∈ pre, isNormalChunk c = true) (hms : ms ≠ [])
    (huntitled : chat.title = "") :
    (agentChatStreamModel chat (pre ++ .done (some ms) tkOpt :: post)
        (.thrown errM) putO).putCalls = [] ∧
    (agentChatStreamModel chat (pre ++ .done (some ms) tkOpt :: post)
        (.thrown errM) putO).titleCalls = 1 ∧
    (∃ e, (agentChatStreamModel chat (pre ++ .done (some ms) tkOpt :: post)
        (.thrown errM) putO).events.getLast? = some e ∧
      e.body = .runError (mkUuid 1) errM false) ∧
    ∀ e ∈ (agentChatStreamModel chat (pre ++ .done (some ms) tkOpt :: post)
        (.thrown errM) putO).events, isRunSaved e = false := by
  obtain ⟨st3, hrun, A, ev, hA, hevb, hbenA⟩ :=
    runLoop_done_decomp (mkUuid 0) (mkUuid 1) pre (startedSt chat.agentId)
      (some ms) tkOpt post hpre
  have hfm : 0 < ms.length := List.length_pos.mpr hms
  have hP : persistPhase (mkUuid 0) (mkUuid 1) st3 chat ms (tkOpt.getD 0)
      (.thrown errM) putO =
      { events := (emitOne (mkUuid 0) st3 (.runError (mkUuid 1) errM false)).events,
        putCalls := [], titleCalls := 1,
        mintedChatId := !(strTruthy chat.chatDocId) } := by
    simp only [persistPhase, if_pos hfm, huntitled]
    simp
  have hR : agentChatStreamModel chat (pre ++ .done (some ms) tkOpt :: post)
      (.thrown errM) putO =
      { events := (emitOne (mkUuid 0) st3 (.runError (mkUuid 1) errM false)).events,
        putCalls := [], titleCalls := 1,
        mintedChatId := !(strTruthy chat.chatDocId) } := by
    rw [agentChatStreamModel_eq, hrun]
    exact hP
  have hev : (agentChatStreamModel chat (pre ++ .done (some ms) tkOpt :: post)
      (.thrown errM) putO).events =
      ((startedSt chat.agentId).events ++ A ++ [ev]) ++
        [⟨mkUuid st3.uuidCtr, mkUuid 0, st3.sequence, 0,
          .runError (mkUuid 1) errM false⟩] := by
    rw [hR, emitOne_events, hA]
  refine ⟨by rw [hR], by rw [hR], ?_, ?_⟩
  · rw [hev]
    exact ⟨_, getLast?_append_singleton _ _, rfl⟩
  · intro e he
    rw [hev] at he
    simp only [List.append_assoc, List.mem_append, List.mem_cons, List.mem_singleton,
      List.not_mem_nil, or_false] at he
    rcases he with he | he | he | he
    · rw [startedSt_events] at he
      simp at he
      rw [he]
      rfl
    · exact isRunSaved_false_of_kind e (benign_kinds e.body (hbenA e he)).2.2
    · rw [he]
      apply isRunSaved_false_of_kind
      rw [hevb]
      simp [EvBody.kind]
    · rw [he]
      rfl

/-- C6 witness: the amended behaviour at a concrete run. -/
theorem C6_title_failure_aborts_persistence_witness :
    (agentChatStreamModel wChatU ([] ++ .done (some [wUserMsg]) (some 3) :: [])
        (.thrown "boom") (.ok "rev1")).putCalls = [] ∧
    (agentChatStreamModel wChatU ([] ++ .done (some [wUserMsg]) (some 3) :: [])
        (.thrown "boom") (.ok "rev1")).titleCalls = 1 := by
  have h := C6_title_failure_aborts_persistence wChatU [] [] [wUserMsg] (some 3)
    (.ok "rev1") "boom" (by intro c hc; simp at hc) (by simp) rfl
  exact ⟨h.1, h.2.1⟩

/-- A tool result carrying both the `message` and the
`removeComponentMessage` directives. -/
def c4ToolResult : ToolResultInfo :=
  { id := "t1",
    result := "\x7b\"removeComponentMessage\":true,\"componentId\":\"c1\",\"message\":\"Saved\"\x7d",
    error := none }

/-- C4 counterexample: the events of a single tool_call_result chunk whose
result carries both a `message` and `removeComponentMessage` are emitted
as item-created, text-completed, item-updated — the text-completed
precedes the item-updated, so the claimed fixed order created → updated →
text-completed does not hold. -/
theorem C4_chunk_order_counterexample :
    claimedChunkOrder (((processChunk "run" "resp" emitterInit
        (.toolCallResult (some c4ToolResult))).1.events).map StreamEvent.kind) = false := rfl

/-- C4 (amended): the events derived from a single tool_call_result chunk
are emitted in the fixed order tool-call-completed, then (when the
`message` directive applies) item-created followed immediately by
text-completed, then (when the `component` directive applies)
item-created, then (when the `removeComponentMessage` directive applies)
item-updated. -/
theorem C4_chunk_emission_order (runId respId : String) (st : EmitterSt)
    (tr : ToolResultInfo) :
    ∃ Δ, (processChunk runId respId st (.toolCallResult (some tr))).1.events =
        st.events ++ Δ ∧
      Δ.map StreamEvent.kind =
        .tcCompleted ::
          ((match msgDirectiveOf tr with
            | some _ => [EvKind.itemCreated, EvKind.textCompleted]
            | none => []) ++
           (match compDirectiveOf tr with
            | some _ => [EvKind.itemCreated]
            | none => []) ++
           (match rmDirectiveOf tr with
            | some _ => [EvKind.itemUpdated]
            | none => [])) := by
  obtain ⟨Δ, hΔ, hmap⟩ := processChunk_events runId respId st (.toolCallResult (some tr))
  refine ⟨Δ, hΔ, ?_⟩
  have hk : Δ.map StreamEvent.kind =
      ((chunkStep respId st (.toolCallResult (some tr))).1).map EvBody.kind := by
    rw [← hmap, List.map_map]
    rfl
  rw [hk]
  rcases h1 : msgBodies respId tr st.uuidCtr with ⟨bs1, c1⟩
  rcases h2 : compBodies respId tr c1 with ⟨bs2, c2⟩
  rcases h3 : rmBodies respId tr c2 with ⟨bs3, c3⟩
  have k1 := msgBodies_kinds respId tr st.uuidCtr
  have k2 := compBodies_kinds respId tr c1
  have k3 := rmBodies_kinds respId tr c2
  rw [h1] at k1
  rw [h2] at k2
  rw [h3] at k3
  simp only [chunkStep, h1, h2, h3]
  simp [k1, k2, k3, EvBody.kind]

/-! ## Engine-step characterizations -/

theorem mset_mset_self {κ β : Type} [DecidableEq κ] (m : List (κ × β)) (k : κ) (v1 v2 : β) :
    mset (mset m k v1) k v2 = mset m k v2 := by
  induction m with
  | nil => simp [mset]
  | cons e t ih =>
    rcases e with ⟨k1, w⟩
    by_cases h : k1 = k
    · simp [mset, h]
    · simp [mset, h, ih]

theorem applyEvent_created (st : EngineState) (r : String) (item : AgentOutputItem)
    (hr : r ≠ "") :
    applyEvent st (evOf (.outputItemCreated r item)) =
      appendSegment st r (segOfItem item) := by
  cases item <;> simp [applyEvent, evOf, effectiveResponseId, hr, segOfItem]

theorem applyEvent_delta (st : EngineState) (r itemId d : String) (hr : r ≠ "") :
    applyEvent st (evOf (.outputTextDelta r itemId d)) =
      updateTextSegment st itemId (fun content => content ++ d) := by
  simp [applyEvent, evOf, effectiveResponseId, hr]

theorem applyEvent_started (st : EngineState) (r : String) :
    applyEvent st (evOf (.responseStarted r [])) =
      (getOrCreateResponseState { st with activeResponseId := some r } r).2 := rfl

theorem getOrCreate_fresh (st : EngineState) (r : String)
    (hnone : mget st.responseStates r = none) :
    getOrCreateResponseState st r =
      ({ responseId := r, messageIndex := st.messages.length, segments := [] },
       { st with
          messages := st.messages ++
            [{ role := "assistant", content := .str "", tool_calls := [],
               tool_call_id := none }]
          messageResponseMap := mset st.messageResponseMap st.messages.length r
          responseStates := mset st.responseStates r
            { responseId := r, messageIndex := st.messages.length, segments := [] }
          responseStatesVersion := st.responseStatesVersion + 1 }) := by
  unfold getOrCreateResponseState pushAssistantMessage
  rw [hnone]
  simp

theorem appendSegment_state_fresh (st : EngineState) (r : String) (seg : AssistantSegment)
    (hnone : mget st.responseStates r = none) :
    (appendSegment st r seg).responseStates =
      mset st.responseStates r
        { responseId := r, messageIndex := st.messages.length, segments := [seg] } ∧
    (appendSegment st r seg).itemToResponse = mset st.itemToResponse seg.id (r, 0) := by
  unfold appendSegment
  rw [getOrCreate_fresh st r hnone]
  unfold reindexResponseSegments
  simp only [refreshAssistantMessageContent_responseStates,
    refreshAssistantMessageContent_itemToResponse]
  rw [mset_mset_self, mget_mset_self]
  constructor
  · simp [mset_mset_self]
  · simp [indexSegsInto]

theorem appendSegment_state_existing (st : EngineState) (r : String) (seg : AssistantSegment)
    (S : ClientResponseState) (hS : mget st.responseStates r = some S) :
    (appendSegment st r seg).responseStates =
      mset st.responseStates r { S with segments := S.segments ++ [seg] } ∧
    (appendSegment st r seg).itemToResponse =
      indexSegsInto st.itemToResponse r (S.segments ++ [seg]) 0 := by
  unfold appendSegment getOrCreateResponseState
  rw [hS]
  unfold reindexResponseSegments
  simp only [refreshAssistantMessageContent_responseStates,
    refreshAssistantMessageContent_itemToResponse]
  rw [mget_mset_self]
  exact ⟨rfl, rfl⟩

theorem replaceSegment_state (st : EngineState) (r : String) (k : Nat)
    (seg : AssistantSegment) (S : ClientResponseState)
    (hS : mget st.responseStates r = some S) :
    (replaceSegment st r k seg).responseStates =
      mset st.responseStates r { S with segments := S.segments.set k seg } ∧
    (replaceSegment st r k seg).itemToResponse =
      indexSegsInto st.itemToResponse r (S.segments.set k seg) 0 := by
  unfold replaceSegment
  rw [hS]
  unfold reindexResponseSegments
  simp only [refreshAssistantMessageContent_responseStates,
    refreshAssistantMessageContent_itemToResponse]
  rw [mget_mset_self]
  exact ⟨rfl, rfl⟩

theorem updateTextSegment_eq (st : EngineState) (itemId : String) (f : String → String)
    (r : String) (k : Nat) (S : ClientResponseState) (sid c : String)
    (hmap : mget st.itemToResponse itemId = some (r, k))
    (hS : mget st.responseStates r = some S)
    (hseg : S.segments[k]? = some (.text sid c)) :
    updateTextSegment st itemId f = replaceSegment st r k (.text sid (f c)) := by
  unfold updateTextSegment
  simp only [hmap, hS, hseg]

/-- A duplicate-delivered created-item event (same `eventId` both times). -/
def c2Event : StreamEvent :=
  evOf (.outputItemCreated "r1" (.textItem "i1" "hi" "assistant" []))

/-- C2 counterexample: applying the very same output-item-created event
twice to a fresh engine duplicates the segment, so `renderSegments`
differs from a single application — the engine performs no deduplication
by `eventId`. -/
theorem C2_idempotence_counterexample :
    renderSegmentsOf (applyEvent (applyEvent (engInit []) c2Event) c2Event) "r1" ≠
      renderSegmentsOf (applyEvent (engInit []) c2Event) "r1" := by
  intro h
  exact absurd (congrArg List.length h) (by decide)

/-- C2 (amended): the engine tracks no seen-event ids: re-applying the same
output-item-created event appends its segment a second time, and
re-applying the same output-text-delta event appends the delta text a
second time. -/
theorem C2_apply_not_idempotent (r id txt d : String) (hr : r ≠ "") :
    responseSegs (applyEvents (engInit [])
        [evOf (.outputItemCreated r (.textItem id txt "assistant" [])),
         evOf (.outputItemCreated r (.textItem id txt "assistant" []))]) r =
      some [.text id txt, .text id txt] ∧
    responseSegs (applyEvents (engInit [])
        [evOf (.outputItemCreated r (.textItem id txt "assistant" [])),
         evOf (.outputTextDelta r id d),
         evOf (.outputTextDelta r id d)]) r =
      some [.text id (txt ++ d ++ d)] := by
  have hfresh : mget (engInit [] : EngineState).responseStates r = none := rfl
  obtain ⟨hrs1, hit1⟩ := appendSegment_state_fresh (engInit []) r
    (segOfItem (.textItem id txt "assistant" [])) hfresh
  have hS1 : mget (appendSegment (engInit []) r
      (segOfItem (.textItem id txt "assistant" []))).responseStates r =
      some ⟨r, 0, [segOfItem (.textItem id txt "assistant" [])]⟩ := by
    rw [hrs1]
    exact mget_mset_self _ _ _
  constructor
  · show responseSegs (applyEvent (applyEvent (engInit [])
      (evOf (.outputItemCreated r (.textItem id txt "assistant" []))))
      (evOf (.outputItemCreated r (.textItem id txt "assistant" [])))) r = _
    rw [applyEvent_created _ _ _ hr, applyEvent_created _ _ _ hr]
    obtain ⟨hrs2, _⟩ := appendSegment_state_existing _ r
      (segOfItem (.textItem id txt "assistant" [])) _ hS1
    unfold responseSegs
    rw [hrs2, mget_mset_self]
    rfl
  · show responseSegs (applyEvent (applyEvent (applyEvent (engInit [])
      (evOf (.outputItemCreated r (.textItem id txt "assistant" []))))
      (evOf (.outputTextDelta r id d))) (evOf (.outputTextDelta r id d))) r = _
    rw [applyEvent_created _ _ _ hr]
    rw [applyEvent_delta _ _ _ _ hr, applyEvent_delta _ _ _ _ hr]
    have hmap1 : mget (appendSegment (engInit []) r
        (segOfItem (.textItem id txt "assistant" []))).itemToResponse id = some (r, 0) := by
      rw [hit1]
      exact mget_mset_self _ _ _
    rw [updateTextSegment_eq _ id _ r 0 _ id txt hmap1 hS1 rfl]
    obtain ⟨hrs2, hit2⟩ := replaceSegment_state _ r 0 (.text id (txt ++ d)) _ hS1
    have hS2 : mget (replaceSegment (appendSegment (engInit []) r
        (segOfItem (.textItem id txt "assistant" []))) r 0
        (.text id (txt ++ d))).responseStates r =
        some ⟨r, 0, [.text id (txt ++ d)]⟩ := by
      rw [hrs2]
      exact mget_mset_self _ _ _
    have hmap2 : mget (replaceSegment (appendSegment (engInit []) r
        (segOfItem (.textItem id txt "assistant" []))) r 0
        (.text id (txt ++ d))).itemToResponse id = some (r, 0) := by
      rw [hit2]
      exact mget_mset_self _ _ _
    rw [updateTextSegment_eq _ id _ r 0 _ id (txt ++ d) hmap2 hS2 rfl]
    obtain ⟨hrs3, _⟩ := replaceSegment_state _ r 0 (.text id (txt ++ d ++ d)) _ hS2
    unfold responseSegs
    rw [hrs3, mget_mset_self]
    rfl

/-- C2 witness: the amended duplication behaviour at concrete inputs. -/
theorem C2_apply_not_idempotent_witness :
    responseSegs (applyEvents (engInit [])
        [evOf (.outputItemCreated "r1" (.textItem "i1" "hi" "assistant" [])),
         evOf (.outputItemCreated "r1" (.textItem "i1" "hi" "assistant" []))]) "r1" =
      some [.text "i1" "hi", .text "i1" "hi"] ∧
    responseSegs (applyEvents (engInit [])
        [evOf (.outputItemCreated "r1" (.textItem "i1" "hi" "assistant" [])),
         evOf (.outputTextDelta "r1" "i1" "!"),
         evOf (.outputTextDelta "r1" "i1" "!")]) "r1" =
      some [.text "i1" ("hi" ++ "!" ++ "!")] :=
  C2_apply_not_idempotent "r1" "i1" "hi" "!" (by decide)

/-- C9: an output-item-created event arriving before any response-started
for its responseId is not dropped: the engine lazily creates the
`ResponseState` and the created item appears as the response's single
segment, exactly as it would had response-started arrived first. -/
theorem C9_lazy_response_creation (st : EngineState) (r : String) (item : AgentOutputItem)
    (hr : r ≠ "") (hnone : mget st.responseStates r = none) :
    responseSegs (applyEvent st (evOf (.outputItemCreated r item))) r =
      some [segOfItem item] ∧
    responseSegs (applyEvent (applyEvent st (evOf (.responseStarted r [])))
        (evOf (.outputItemCreated r item))) r =
      responseSegs (applyEvent st (evOf (.outputItemCreated r item))) r := by
  have hdirect : responseSegs (applyEvent st (evOf (.outputItemCreated r item))) r =
      some [segOfItem item] := by
    rw [applyEvent_created _ _ _ hr]
    obtain ⟨hrs, _⟩ := appendSegment_state_fresh st r (segOfItem item) hnone
    unfold responseSegs
    rw [hrs, mget_mset_self]
    rfl
  refine ⟨hdirect, ?_⟩
  rw [hdirect, applyEvent_started]
  generalize hG : (getOrCreateResponseState { st with activeResponseId := some r } r).2 = stS
  have hnone2 : mget ({ st with activeResponseId := some r } : EngineState).responseStates r =
      none := hnone
  have hS : mget stS.responseStates r = some ⟨r, st.messages.length, []⟩ := by
    rw [← hG, getOrCreate_fresh _ r hnone2]
    exact mget_mset_self _ _ _
  rw [applyEvent_created _ _ _ hr]
  obtain ⟨hrs, _⟩ := appendSegment_state_existing stS r (segOfItem item) _ hS
  unfold responseSegs
  rw [hrs, mget_mset_self]
  rfl

/-- C9 witness: lazy creation at a concrete out-of-order delivery. -/
theorem C9_lazy_response_creation_witness :
    responseSegs (applyEvent (engInit [])
        (evOf (.outputItemCreated "r9" (.componentItem "c9" (.obj []) "assistant" [])))) "r9" =
      some [segOfItem (.componentItem "c9" (.obj []) "assistant" [])] :=
  (C9_lazy_response_creation (engInit []) "r9"
    (.componentItem "c9" (.obj []) "assistant" []) (by decide) rfl).1

theorem map_eraseIdx {α β : Type} (f : α → β) :
    ∀ (l : List α) (i : Nat), (l.eraseIdx i).map f = (l.map f).eraseIdx i
  | [], _ => by simp [List.eraseIdx]
  | _ :: _, 0 => by simp [List.eraseIdx]
  | a :: t, i + 1 => by simp [List.eraseIdx, map_eraseIdx f t i]

theorem not_mem_eraseIdx_of_nodup {α : Type} :
    ∀ (l : List α) (k : Nat) (x : α), l.Nodup → l[k]? = some x → x ∉ l.eraseIdx k := by
  intro l
  induction l with
  | nil => intro k x _ h; simp at h
  | cons a t ih =>
    intro k x hnd h
    rcases List.nodup_cons.mp hnd with ⟨ha, ht⟩
    cases k with
    | zero =>
      simp at h
      subst h
      simpa [List.eraseIdx] using ha
    | succ k =>
      simp at h
      simp only [List.eraseIdx, List.mem_cons]
      rintro (rfl | hx)
      · exact ha (List.getElem?_mem h)
      · exact ih k x ht h hx

/-- The state after a `state = hidden` patch without `replaceWith` on an
existing component segment: the segment is spliced out of the response's
segment list and its reverse-index entry is removed before reindexing the
survivors. -/
theorem hiddenPatch_state (st : EngineState) (rEv itemId : String)
    (meta : List (String × Json)) (r : String) (k : Nat) (S : ClientResponseState)
    (cid : String) (comp : Json) (hid : Bool)
    (hmap : mget st.itemToResponse itemId = some (r, k))
    (hS : mget st.responseStates r = some S)
    (hseg : S.segments[k]? = some (.component cid comp hid)) :
    (applyEvent st (evOf (.outputItemUpdated rEv itemId
        { state := some "hidden", metadata := meta, replaceWith := none }))).responseStates =
      mset st.responseStates r { S with segments := S.segments.eraseIdx k } ∧
    (applyEvent st (evOf (.outputItemUpdated rEv itemId
        { state := some "hidden", metadata := meta, replaceWith := none }))).itemToResponse =
      indexSegsInto (mdel st.itemToResponse itemId) r (S.segments.eraseIdx k) 0 := by
  unfold applyEvent
  simp only [evOf]
  unfold locateSegment
  simp only [hmap, hS, hseg]
  simp only [reindexResponseSegments, mget_mset_self,
    refreshAssistantMessageContent_responseStates, refreshAssistantMessageContent_itemToResponse,
    clearComponentLoading_responseStates, clearComponentLoading_itemToResponse]
  simp

/-- The created component event and hide patch used in the C3 scenario. -/
def c3Created : StreamEvent :=
  evOf (.outputItemCreated "r1" (.componentItem "c1" (.obj [("x", .num 1)]) "assistant" []))

/-- The hide patch (no replaceWith) targeting the component. -/
def c3Hide : StreamEvent :=
  evOf (.outputItemUpdated "r1" "c1"
    { state := some "hidden", metadata := [], replaceWith := none })

/-- C3 counterexample: after the hide patch the component segment is not
retained in the response's internal segment list (it becomes empty) and
its reverse-index entry is gone, so it is no longer targetable by later
patches — refuting the claimed internal retention. -/
theorem C3_hidden_retention_counterexample :
    responseSegs (applyEvents (engInit []) [c3Created, c3Hide]) "r1" = some [] ∧
    mget (applyEvents (engInit []) [c3Created, c3Hide]).itemToResponse "c1" = none :=
  ⟨rfl, rfl⟩

/-- C3 (amended): an output-item-updated event with `state = hidden` and no
`replaceWith` on an existing component segment removes the segment from
the response's internal segment list entirely (shifting later segments
down) and deletes its reverse-index entry; the segment is excluded from
the rendered view but is NOT retained internally and cannot be targeted
by later patches. -/
theorem C3_hidden_removes_segment (st : EngineState) (rEv r cid : String) (k : Nat)
    (meta : List (String × Json)) (S : ClientResponseState) (comp : Json) (hid : Bool)
    (hmap : mget st.itemToResponse cid = some (r, k))
    (hS : mget st.responseStates r = some S)
    (hseg : S.segments[k]? = some (.component cid comp hid))
    (hnodup : (S.segments.map AssistantSegment.id).Nodup) :
    responseSegs (applyEvent st (evOf (.outputItemUpdated rEv cid
        { state := some "hidden", metadata := meta, replaceWith := none }))) r =
      some (S.segments.eraseIdx k) ∧
    mget (applyEvent st (evOf (.outputItemUpdated rEv cid
        { state := some "hidden", metadata := meta, replaceWith := none }))).itemToResponse
      cid = none := by
  obtain ⟨hrs, hit⟩ := hiddenPatch_state st rEv cid meta r k S cid comp hid hmap hS hseg
  constructor
  · unfold responseSegs
    rw [hrs, mget_mset_self]
    rfl
  · rw [hit]
    have hnm : cid ∉ (S.segments.eraseIdx k).map AssistantSegment.id := by
      rw [map_eraseIdx]
      apply not_mem_eraseIdx_of_nodup _ k cid hnodup
      rw [List.getElem?_map, hseg]
      rfl
    rw [mget_indexSegsInto_not_mem _ _ _ _ _ hnm]
    exact mget_mdel_self _ _

/-- C1 scenario: the user's opening message. -/
def c1UserMsg : Message := ⟨"user", .str "Hi", [], none⟩

/-- C1 scenario: the final assistant message, carrying one tool call. -/
def c1AssistantMsg : Message :=
  ⟨"assistant", .str "Hello", [⟨"function", some ⟨"f", "\x7b\x7d"⟩⟩], none⟩

/-- C1 scenario: the tool message answering the call. -/
def c1ToolMsg : Message := ⟨"tool", .str "\x7b\"ok\":true\x7d", [], some "t1"⟩

/-- C1 scenario: the final message list the provider returns with `done`. -/
def c1Msgs : List Message := [c1UserMsg, c1AssistantMsg, c1ToolMsg]

/-- C1 scenario: a titled request chat (no title prompt issued). -/
def c1Chat : ChatIn := ⟨none, none, "agent-1", "T", [c1UserMsg]⟩

/-- C1 scenario: one content chunk then `done` with the final messages. -/
def c1Chunks : List ProviderChunk := [.content (some "Hello"), .done (some c1Msgs) (some 5)]

/-- C1 scenario: the completed run with a successful store write. -/
def c1Run : RunResult := agentChatStreamModel c1Chat c1Chunks (.ok "unused") (.ok "rev-1")

/-- C1 counterexample: for this completed run, rehydrating the persisted
chat document does not reproduce (even ignoring ids) the non-hidden
segments the live engine held — the debug annotation appended to the
assistant content at persistence time is not stripped by
`rehydrateFromChatHistory`, so the rehydrated text segment carries the
annotated content while the live segment carries the plain text. -/
theorem C1_round_trip_counterexample :
    segsMatchUpToIds
      (renderSegmentsOf (rehydrateFromChatHistory (engInit [])
        ((c1Run.putCalls.headD docDefault).messages)) "history-1")
      (renderSegmentsOf (applyEvents (engInit [c1UserMsg]) c1Run.events) (mkUuid 1)) =
      false := rfl

/-- C1 (amended): the debug-annotation step only rewrites assistant
messages that carry tool calls; on transcripts whose assistant messages
have none it is the identity, and only then is rehydration of the
persisted messages guaranteed to be unaffected by it — the annotation is
not stripped on decoding, so annotated assistant text reaches the
rehydrated segments verbatim. -/
theorem C1_debug_annotation_identity_without_toolcalls (ms : List Message)
    (h : ∀ m ∈ ms, m.role = "assistant" → m.tool_calls = []) :
    addDebugInformation ms = ms ∧
    ∀ st : EngineState,
      rehydrateFromChatHistory st (addDebugInformation ms) =
        rehydrateFromChatHistory st ms := by
  have hmap : addDebugInformation ms = ms := by
    unfold addDebugInformation
    calc ms.map _ = ms.map id := by
          apply List.map_congr_left
          intro m hm
          by_cases hr : m.role = "assistant"
          · have hl : m.tool_calls = [] := h m hm hr
            simp [hl]
          · simp [hr]
      _ = ms := List.map_id ms
  exact ⟨hmap, fun st => by rw [hmap]⟩

/-- C1 witness: the annotation identity on a one-message transcript whose
assistant message has no tool calls, and the resulting rehydration
stability. -/
theorem C1_debug_annotation_identity_witness :
    addDebugInformation [(⟨"assistant", .str "Hello", [], none⟩ : Message)] =
      [(⟨"assistant", .str "Hello", [], none⟩ : Message)] ∧
    rehydrateFromChatHistory (engInit [])
        (addDebugInformation [(⟨"assistant", .str "Hello", [], none⟩ : Message)]) =
      rehydrateFromChatHistory (engInit [])
        [(⟨"assistant", .str "Hello", [], none⟩ : Message)] :=
  ⟨(C1_debug_annotation_identity_without_toolcalls
      [⟨"assistant", .str "Hello", [], none⟩]
      (by intro m hm hr; rw [List.mem_singleton] at hm; subst hm; rfl)).1,
   (C1_debug_annotation_identity_without_toolcalls
      [⟨"assistant", .str "Hello", [], none⟩]
      (by intro m hm hr; rw [List.mem_singleton] at hm; subst hm; rfl)).2 (engInit [])⟩

/-- Recognizer of output-item-updated payloads. -/
def isUpdBody : EvBody → Bool
  | .outputItemUpdated .. => true
  | _ => false

theorem rmReplaceId_ne (cid : String) (n : Nat) : cid ++ "-result-" ++ mkUuid n ≠ cid := by
  intro h
  have hl := congrArg String.length h
  rw [String.length_append, String.length_append] at hl
  have h8 : ("-result-" : String).length = 8 := rfl
  rw [h8] at hl
  omega

theorem not_mem_map_set {α β : Type} (f : α → β) :
    ∀ (l : List α) (k : Nat) (u v : α), (l.map f).Nodup → l[k]? = some u → f v ≠ f u →
      f u ∉ (l.set k v).map f := by
  intro l
  induction l with
  | nil => intro k u v _ h _; simp at h
  | cons a t ih =>
    intro k u v hnd h hne
    rw [List.map_cons] at hnd
    rcases List.nodup_cons.mp hnd with ⟨ha, ht⟩
    cases k with
    | zero =>
      simp at h
      subst h
      simp only [List.set_cons_zero, List.map_cons, List.mem_cons]
      rintro (h1 | h1)
      · exact hne h1.symm
      · exact ha h1
    | succ k =>
      simp at h
      simp only [List.set_cons_succ, List.map_cons, List.mem_cons]
      rintro (h1 | h1)
      · exact ha (h1 ▸ List.mem_map.mpr ⟨u, List.getElem?_mem h, rfl⟩)
      · exact ih k u v ht h hne h1

theorem msgBodies_filter_upd (respId : String) (tr : ToolResultInfo) (n : Nat) :
    ((msgBodies respId tr n).1).filter isUpdBody = [] := by
  rcases h : msgDirectiveOf tr with _ | m <;> simp [msgBodies, h, isUpdBody]

theorem compBodies_filter_upd (respId : String) (tr : ToolResultInfo) (n : Nat) :
    ((compBodies respId tr n).1).filter isUpdBody = [] := by
  rcases h : compDirectiveOf tr with _ | c
  · simp [compBodies, h]
  · rcases h2 : compIdOf c with _ | cid <;> simp [compBodies, h, h2, isUpdBody]

theorem rmBodies_eq_of_rm_message (respId : String) (tr : ToolResultInfo) (n : Nat)
    (cid m : String) (hrm : rmDirectiveOf tr = some (cid, some m)) :
    (rmBodies respId tr n).1 =
      [EvBody.outputItemUpdated respId cid
        { state := some "hidden", metadata := rmMeta tr.id,
          replaceWith := some
            (.textItem (cid ++ "-result-" ++ mkUuid n) m "assistant" (srcMeta tr.id)) }] := by
  simp [rmBodies, hrm]

/-- The state after a hide patch whose `replaceWith` carries a text item:
the located segment is overwritten in place by the replacement text
segment. -/
theorem replacePatch_state (est : EngineState) (rEv cid nid m rl : String)
    (pm md : List (String × Json)) (r : String) (k : Nat)
    (S : ClientResponseState) (cur : AssistantSegment)
    (hmap : mget est.itemToResponse cid = some (r, k))
    (hS : mget est.responseStates r = some S)
    (hseg : S.segments[k]? = some cur) :
    (applyEvent est (evOf (.outputItemUpdated rEv cid
        { state := some "hidden", metadata := pm,
          replaceWith := some (.textItem nid m rl md) }))).responseStates =
      mset est.responseStates r { S with segments := S.segments.set k (.text nid m) } := by
  have hrs := (replaceSegment_state est r k (.text nid m) S hS).1
  unfold applyEvent
  simp only [evOf]
  unfold locateSegment
  simp only [hmap, hS, hseg]
  simp [hrs]

/-- C8: a successful tool result carrying `removeComponentMessage = true`,
a string `componentId` and a non-empty `message` makes the emitter emit
exactly one output-item-updated event among the chunk's events — its patch
has `state = hidden` and `replaceWith` a fresh text item with the message —
and applying that event to an engine holding the component segment puts
the replacement text segment at the component's former position while the
component is absent from the rendered list. -/
theorem C8_atomic_hide_and_replace (respId : String) (tr : ToolResultInfo)
    (cid m : String) (st : EmitterSt) (est : EngineState) (rEv r : String) (k : Nat)
    (S : ClientResponseState) (comp : Json) (hid : Bool)
    (hrm : rmDirectiveOf tr = some (cid, some m))
    (hmap : mget est.itemToResponse cid = some (r, k))
    (hS : mget est.responseStates r = some S)
    (hseg : S.segments[k]? = some (.component cid comp hid))
    (hnodup : (S.segments.map AssistantSegment.id).Nodup) :
    ∃ nid : String, nid ≠ cid ∧
      ((chunkStep respId st (.toolCallResult (some tr))).1.filter isUpdBody =
        [EvBody.outputItemUpdated respId cid
          { state := some "hidden", metadata := rmMeta tr.id,
            replaceWith := some (.textItem nid m "assistant" (srcMeta tr.id)) }]) ∧
      responseSegs (applyEvent est (evOf (.outputItemUpdated rEv cid
          { state := some "hidden", metadata := rmMeta tr.id,
            replaceWith := some (.textItem nid m "assistant" (srcMeta tr.id)) }))) r =
        some (S.segments.set k (.text nid m)) ∧
      ∀ seg ∈ renderSegmentsOf (applyEvent est (evOf (.outputItemUpdated rEv cid
          { state := some "hidden", metadata := rmMeta tr.id,
            replaceWith := some (.textItem nid m "assistant" (srcMeta tr.id)) }))) r,
        seg.id ≠ cid := by
  rcases h1 : msgBodies respId tr st.uuidCtr with ⟨bs1, c1⟩
  rcases h2 : compBodies respId tr c1 with ⟨bs2, c2⟩
  rcases h3 : rmBodies respId tr c2 with ⟨bs3, c3⟩
  have hst := replacePatch_state est rEv cid (cid ++ "-result-" ++ mkUuid c2) m "assistant"
    (rmMeta tr.id) (srcMeta tr.id) r k S (.component cid comp hid) hmap hS hseg
  refine ⟨cid ++ "-result-" ++ mkUuid c2, rmReplaceId_ne cid c2, ?_, ?_, ?_⟩
  · have e1 : bs1.filter isUpdBody = [] := by
      have hx := msgBodies_filter_upd respId tr st.uuidCtr
      rw [h1] at hx
      exact hx
    have e2 : bs2.filter isUpdBody = [] := by
      have hx := compBodies_filter_upd respId tr c1
      rw [h2] at hx
      exact hx
    have e3 : bs3 =
        [EvBody.outputItemUpdated respId cid
          { state := some "hidden", metadata := rmMeta tr.id,
            replaceWith := some
              (.textItem (cid ++ "-result-" ++ mkUuid c2) m "assistant" (srcMeta tr.id)) }] := by
      have hx := rmBodies_eq_of_rm_message respId tr c2 cid m hrm
      rw [h3] at hx
      exact hx
    simp only [chunkStep, h1, h2, h3]
    simp [List.filter_append, e1, e2, e3, isUpdBody]
  · unfold responseSegs
    rw [hst, mget_mset_self]
    rfl
  · intro seg hsg
    simp only [renderSegmentsOf, hst, mget_mset_self] at hsg
    intro hid2
    have hmem : seg ∈ S.segments.set k (.text (cid ++ "-result-" ++ mkUuid c2) m) := by
      have hx := hsg
      simp only [renderFilter] at hx
      exact List.mem_of_mem_filter hx
    have hin : seg.id ∈
        (S.segments.set k (.text (cid ++ "-result-" ++ mkUuid c2) m)).map
          AssistantSegment.id :=
      List.mem_map.mpr ⟨seg, hmem, rfl⟩
    rw [hid2] at hin
    exact not_mem_map_set AssistantSegment.id S.segments k (.component cid comp hid)
      (.text (cid ++ "-result-" ++ mkUuid c2) m) hnodup hseg (rmReplaceId_ne cid c2) hin

/-- C8 witness: the atomic hide-and-replace at the concrete scenario of the
spec (`removeComponentMessage` on component `c1` with message `Saved`). -/
theorem C8_atomic_hide_and_replace_witness :
    ∃ nid : String, nid ≠ "c1" ∧
      ((chunkStep "resp" emitterInit (.toolCallResult (some c4ToolResult))).1.filter isUpdBody =
        [EvBody.outputItemUpdated "resp" "c1"
          { state := some "hidden", metadata := rmMeta c4ToolResult.id,
            replaceWith := some (.textItem nid "Saved" "assistant" (srcMeta c4ToolResult.id)) }]) ∧
      responseSegs (applyEvent (applyEvent (engInit []) (evOf (.outputItemCreated "r1"
          (.componentItem "c1" (.obj []) "assistant" [])))) (evOf (.outputItemUpdated "rE" "c1"
          { state := some "hidden", metadata := rmMeta c4ToolResult.id,
            replaceWith := some (.textItem nid "Saved" "assistant" (srcMeta c4ToolResult.id)) })))
          "r1" =
        some ([AssistantSegment.component "c1" (.obj []) false].set 0 (.text nid "Saved")) ∧
      ∀ seg ∈ renderSegmentsOf (applyEvent (applyEvent (engInit []) (evOf (.outputItemCreated "r1"
          (.componentItem "c1" (.obj []) "assistant" [])))) (evOf (.outputItemUpdated "rE" "c1"
          { state := some "hidden", metadata := rmMeta c4ToolResult.id,
            replaceWith := some (.textItem nid "Saved" "assistant" (srcMeta c4ToolResult.id)) })))
          "r1",
        seg.id ≠ "c1" :=
  C8_atomic_hide_and_replace "resp" c4ToolResult "c1" "Saved" emitterInit
    (applyEvent (engInit []) (evOf (.outputItemCreated "r1"
      (.componentItem "c1" (.obj []) "assistant" []))))
    "rE" "r1" 0 ⟨"r1", 0, [.component "c1" (.obj []) false]⟩ (.obj []) false
    rfl rfl rfl rfl (by simp)

/-- C3 witness: the amended removal behaviour at the concrete scenario. -/
theorem C3_hidden_removes_segment_witness :
    responseSegs (applyEvent (applyEvents (engInit []) [c3Created]) (evOf
        (.outputItemUpdated "r1" "c1"
          { state := some "hidden", metadata := [], replaceWith := none }))) "r1" =
      some ([AssistantSegment.component "c1" (.obj [("x", .num 1)]) false].eraseIdx 0) ∧
    mget (applyEvent (applyEvents (engInit []) [c3Created]) (evOf
        (.outputItemUpdated "r1" "c1"
          { state := some "hidden", metadata := [], replaceWith := none }))).itemToResponse
      "c1" = none :=
  C3_hidden_removes_segment (applyEvents (engInit []) [c3Created]) "r1" "r1" "c1" 0 []
    ⟨"r1", 0, [.component "c1" (.obj [("x", .num 1)]) false]⟩ (.obj [("x", .num 1)]) false
    rfl rfl rfl (by simp)

end AgentStream
